import Mathlib

/-!
Verification development for ninja's write-only protobuf C++ header generator
(`misc/generate_proto_header.py`).  The generator walks a protobuf file
descriptor and emits C++ structs with `SerializeToOstream`, `ByteSizeLong`
and `Clear` methods.  We embed:

* the text-emission engine (`Writer.writelines`, `StringWriter`),
* the encoding tables (`ENCODING_MAP`, `CPP_TYPE_MAP`),
* the generator proper (`write_field`, `write_enum`, `write_message`,
  `write_proto`, `main`),
* a semantic model of the *generated* C++ code (serialize / size / clear
  bodies) together with a wire-format model of the tiny runtime
  (`proto.h` / `proto.cc`, which is not part of the sources at hand and is
  therefore modelled from the specification).

Text is represented as `List Char` so that both concrete evaluation and
structural proofs are convenient.
-/

namespace NinjaProto

/-- Text as a list of characters. -/
abbrev Str := List Char

/-- Convert a Lean string literal to our text representation. -/
def strOf (s : String) : Str := s.data

/-- A run of `n` spaces; negative counts give the empty string, matching
Python's `' ' * n`. -/
def spaces (n : Int) : Str := List.replicate n.toNat ' '

/-- Python `len(s) - len(s.lstrip(' '))`: number of leading space characters
(embeds `initial_indent`). -/
def initial_indent (s : Str) : Nat := (s.takeWhile (fun c => c = ' ')).length

/-- Python's whitespace test used by `str.strip()`: we only need the
characters that can occur in the generator's fragments. -/
def isPyWhitespace (c : Char) : Bool :=
  c = ' ' || c = '\t' || c = '\n' || c = '\r'

/-- Python `len(s.strip()) == 0`. -/
def stripIsEmpty (s : Str) : Bool := s.all isPyWhitespace

/-- Python `s.split('\n')`: always returns at least one chunk. -/
def splitNl : Str → List Str
  | [] => [[]]
  | c :: rest =>
    if c = '\n' then [] :: splitNl rest
    else
      match splitNl rest with
      | s :: ss => (c :: s) :: ss
      | [] => [[c]]

/-- `splitNl` never returns the empty list (mirrors Python `split`). -/
theorem splitNl_ne_nil (s : Str) : splitNl s ≠ [] := by
  induction s with
  | nil => simp [splitNl]
  | cons c rest ih =>
    simp only [splitNl]
    split
    · simp
    · cases h : splitNl rest with
      | nil => exact absurd h ih
      | cons a l => simp

/-- Embeds `Writer.writeln`: a nonempty line is emitted with the current
indent and a trailing newline, an empty line becomes a bare newline. -/
def writelnText (ind : Int) (s : Str) : Str :=
  if s.length > 0 then spaces ind ++ s ++ ['\n'] else ['\n']

/-- The loop inside `Writer.writelines`: all lines but the last are written
(stripped by `min(initial_indent(line), first_indent)`), the last line is
written only if its stripped form is nonempty. -/
def emitLines (ind : Int) (fi : Nat) : List Str → Str
  | [] => []
  | [last] =>
    let k := min (initial_indent last) fi
    if (last.drop k) ≠ [] then writelnText ind (last.drop k) else []
  | l :: rest =>
    writelnText ind (l.drop (min (initial_indent l) fi)) ++ emitLines ind fi rest

/-- Embeds `Writer.writelines`: split on newlines, drop a leading blank
line, then strip each line by the minimum of its own leading whitespace and
the first line's leading whitespace and re-emit at the current indent. -/
def writelinesText (ind : Int) (s : Str) : Str :=
  let lines := splitNl s
  let lines :=
    match lines with
    | l0 :: rest => if stripIsEmpty l0 then rest else lines
    | [] => []
  match lines with
  | [] => []
  | l0 :: rest => emitLines ind (initial_indent l0) (l0 :: rest)

/-- Embeds the file-backed `Writer`: accumulated output plus current
indent. -/
structure W where
  buf : Str
  curIndent : Int
deriving Repr, DecidableEq

def W.write (w : W) (s : Str) : W := { w with buf := w.buf ++ s }

def W.writeln (w : W) (s : Str) : W := w.write (writelnText w.curIndent s)

def W.newline (w : W) : W := w.write ['\n']

def W.writelines (w : W) (s : Str) : W :=
  w.write (writelinesText w.curIndent s)

def W.indent (w : W) : W := { w with curIndent := w.curIndent + 2 }

def W.unindent (w : W) : W := { w with curIndent := w.curIndent - 2 }

/-- Embeds `StringWriter`: a buffered writer with optional prefix/suffix
fragments wrapped around the buffer when `string()` is called. -/
structure SW where
  buf : Str
  curIndent : Int
  pre : Str
  suf : Str
deriving Repr, DecidableEq

def SW.write (sw : SW) (s : Str) : SW := { sw with buf := sw.buf ++ s }

def SW.writeln (sw : SW) (s : Str) : SW := sw.write (writelnText sw.curIndent s)

def SW.writelines (sw : SW) (s : Str) : SW :=
  sw.write (writelinesText sw.curIndent s)

def SW.indent (sw : SW) : SW := { sw with curIndent := sw.curIndent + 2 }

def SW.unindent (sw : SW) : SW := { sw with curIndent := sw.curIndent - 2 }

/-- Embeds `Writer.stringwriter` / `StringWriter.__init__`: start with an
empty buffer at the parent's indent; a nonempty prefix is written
immediately and the indent is increased. -/
def SW.make (ind : Int) (pre suf : Str) : SW :=
  let sw : SW := ⟨[], ind, pre, suf⟩
  if pre ≠ [] then (sw.writelines pre).indent else sw

/-- Embeds `StringWriter.string()`: close the prefix (unindent, then write
the suffix) and return the buffer. -/
def SW.string (sw : SW) : Str :=
  if sw.pre ≠ [] then
    let sw := sw.unindent
    if sw.suf ≠ [] then (sw.writelines sw.suf).buf else sw.buf
  else sw.buf

/-! ## Descriptor model and encoding tables -/

/-- Wire kind constants of `google.protobuf.descriptor.FieldDescriptor`. -/
def TYPE_DOUBLE : Nat := 1
def TYPE_FLOAT : Nat := 2
def TYPE_INT64 : Nat := 3
def TYPE_UINT64 : Nat := 4
def TYPE_INT32 : Nat := 5
def TYPE_FIXED64 : Nat := 6
def TYPE_FIXED32 : Nat := 7
def TYPE_BOOL : Nat := 8
def TYPE_STRING : Nat := 9
def TYPE_GROUP : Nat := 10
def TYPE_MESSAGE : Nat := 11
def TYPE_BYTES : Nat := 12
def TYPE_UINT32 : Nat := 13
def TYPE_ENUM : Nat := 14
def TYPE_SFIXED32 : Nat := 15
def TYPE_SFIXED64 : Nat := 16
def TYPE_SINT32 : Nat := 17
def TYPE_SINT64 : Nat := 18

/-- Label constants of `FieldDescriptor`. -/
def LABEL_OPTIONAL : Nat := 1
def LABEL_REQUIRED : Nat := 2
def LABEL_REPEATED : Nat := 3

/-- C++-type constants of `FieldDescriptor`. -/
def CPPTYPE_INT32 : Nat := 1
def CPPTYPE_INT64 : Nat := 2
def CPPTYPE_UINT32 : Nat := 3
def CPPTYPE_UINT64 : Nat := 4
def CPPTYPE_DOUBLE : Nat := 5
def CPPTYPE_FLOAT : Nat := 6
def CPPTYPE_BOOL : Nat := 7
def CPPTYPE_ENUM : Nat := 8
def CPPTYPE_STRING : Nat := 9
def CPPTYPE_MESSAGE : Nat := 10

/-- Embeds `CPP_TYPE_MAP` from the generator. -/
def CPP_TYPE_MAP (t : Nat) : Option Str :=
  if t = CPPTYPE_INT32 then some (strOf "int32_t")
  else if t = CPPTYPE_INT64 then some (strOf "int64_t")
  else if t = CPPTYPE_UINT32 then some (strOf "uint32_t")
  else if t = CPPTYPE_UINT64 then some (strOf "uint64_t")
  else if t = CPPTYPE_DOUBLE then some (strOf "double")
  else if t = CPPTYPE_FLOAT then some (strOf "float")
  else if t = CPPTYPE_BOOL then some (strOf "bool")
  else if t = CPPTYPE_STRING then some (strOf "std::string")
  else none

/-- Embeds `ENCODING_MAP`: wire kind to (size rule, write rule, optional
value transform). -/
def ENCODING_MAP (t : Nat) : Option (Str × Str × Option Str) :=
  if t = TYPE_INT32 then
    some (strOf "VarintSize32SignExtended", strOf "WriteVarint32SignExtended", none)
  else if t = TYPE_INT64 then some (strOf "VarintSize64", strOf "WriteVarint64", none)
  else if t = TYPE_UINT32 then some (strOf "VarintSize32", strOf "WriteVarint32", none)
  else if t = TYPE_UINT64 then some (strOf "VarintSize64", strOf "WriteVarint64", none)
  else if t = TYPE_SINT32 then
    some (strOf "VarintSize32", strOf "WriteVarint32", some (strOf "ZigZagEncode32"))
  else if t = TYPE_SINT64 then
    some (strOf "VarintSize64", strOf "WriteVarint64", some (strOf "ZigZagEncode64"))
  else if t = TYPE_BOOL then some (strOf "VarintSizeBool", strOf "WriteVarint32", none)
  else if t = TYPE_ENUM then
    some (strOf "VarintSize32SignExtended", strOf "WriteVarint32SignExtended",
      some (strOf "static_cast<int32_t>"))
  else if t = TYPE_FIXED64 then some (strOf "FixedSize64", strOf "WriteFixed64", none)
  else if t = TYPE_SFIXED64 then
    some (strOf "FixedSize64", strOf "WriteFixed64", some (strOf "static_cast<uint64_t>"))
  else if t = TYPE_DOUBLE then
    some (strOf "FixedSize64", strOf "WriteFixed64", some (strOf "static_cast<uint64_t>"))
  else if t = TYPE_STRING then some (strOf "StringSize", strOf "WriteString", none)
  else if t = TYPE_BYTES then some (strOf "StringSize", strOf "WriteString", none)
  else if t = TYPE_FIXED32 then some (strOf "FixedSize32", strOf "WriteFixed32", none)
  else if t = TYPE_SFIXED32 then
    some (strOf "FixedSize32", strOf "WriteFixed32", some (strOf "static_cast<uint32_t>"))
  else if t = TYPE_FLOAT then
    some (strOf "FixedSize32", strOf "WriteFixed32", some (strOf "static_cast<uint32_t>"))
  else none

/-- Models `FieldDescriptor.ProtoTypeToCppProtoType` from the python
protobuf library (an external dependency of the script): the fixed mapping
from wire kind to C++-type constant. -/
def ProtoTypeToCppProtoType (t : Nat) : Option Nat :=
  if t = TYPE_DOUBLE then some CPPTYPE_DOUBLE
  else if t = TYPE_FLOAT then some CPPTYPE_FLOAT
  else if t = TYPE_INT64 then some CPPTYPE_INT64
  else if t = TYPE_UINT64 then some CPPTYPE_UINT64
  else if t = TYPE_INT32 then some CPPTYPE_INT32
  else if t = TYPE_FIXED64 then some CPPTYPE_UINT64
  else if t = TYPE_FIXED32 then some CPPTYPE_UINT32
  else if t = TYPE_BOOL then some CPPTYPE_BOOL
  else if t = TYPE_STRING then some CPPTYPE_STRING
  else if t = TYPE_GROUP then some CPPTYPE_MESSAGE
  else if t = TYPE_MESSAGE then some CPPTYPE_MESSAGE
  else if t = TYPE_BYTES then some CPPTYPE_STRING
  else if t = TYPE_UINT32 then some CPPTYPE_UINT32
  else if t = TYPE_ENUM then some CPPTYPE_ENUM
  else if t = TYPE_SFIXED32 then some CPPTYPE_INT32
  else if t = TYPE_SFIXED64 then some CPPTYPE_INT64
  else if t = TYPE_SINT32 then some CPPTYPE_INT32
  else if t = TYPE_SINT64 then some CPPTYPE_INT64
  else none

/-- Field schema: the parts of `FieldDescriptorProto` the generator reads. -/
structure FieldDescriptorProto where
  name : Str
  number : Nat
  label : Nat
  type : Nat
  type_name : Str
deriving Repr, DecidableEq

/-- Enum value schema. -/
structure EnumValueDescriptorProto where
  name : Str
  number : Int
deriving Repr, DecidableEq

/-- Enum schema. -/
structure EnumDescriptorProto where
  name : Str
  value : List EnumValueDescriptorProto
deriving Repr, DecidableEq

/-- Message schema (recursively nested). -/
inductive DescriptorProto where
  | mk (name : Str) (field : List FieldDescriptorProto)
      (nested_type : List DescriptorProto) (enum_type : List EnumDescriptorProto)
deriving Repr

def DescriptorProto.name : DescriptorProto → Str
  | .mk n _ _ _ => n

def DescriptorProto.field : DescriptorProto → List FieldDescriptorProto
  | .mk _ f _ _ => f

def DescriptorProto.nested_type : DescriptorProto → List DescriptorProto
  | .mk _ _ n _ => n

def DescriptorProto.enum_type : DescriptorProto → List EnumDescriptorProto
  | .mk _ _ _ e => e

/-- File schema: the parts of `FileDescriptorProto` the generator reads. -/
structure FileDescriptorProto where
  package : Str
  message_type : List DescriptorProto
  enum_type : List EnumDescriptorProto
deriving Repr

/-- A Python `KeyError` escaping from a dictionary lookup; it carries only
the missing key. -/
inductive GenError where
  | keyError (key : Nat)
deriving Repr, DecidableEq

/-- Python `s.replace('.', '::')`. -/
def replaceDots : Str → Str
  | [] => []
  | c :: rest => if c = '.' then ':' :: ':' :: replaceDots rest else c :: replaceDots rest

/-- Embeds `field_type_to_cpp_type`. -/
def field_type_to_cpp_type (field : FieldDescriptorProto) : Except GenError Str :=
  if field.type_name ≠ [] then .ok (replaceDots field.type_name)
  else
    match ProtoTypeToCppProtoType field.type with
    | none => .error (.keyError field.type)
    | some cppType =>
      match CPP_TYPE_MAP cppType with
      | none => .error (.keyError cppType)
      | some t => .ok t

/-- Decimal rendering of a natural number (Python `%d`). -/
def natToDec (n : Nat) : Str := Nat.toDigits 10 n

/-- Decimal rendering of an integer (Python `%d`). -/
def intToDec (i : Int) : Str :=
  if i < 0 then '-' :: natToDec i.natAbs else natToDec i.toNat

/-! ## The generator -/

/-- Embeds `Generator.write_field`: emits the data declaration, constructor
initialisation, accessors and the per-method fragments for one field.
Returns the updated main writer and the five buffered writers, or the
`KeyError` escaping from a table lookup. -/
def write_field (w : W) (field : FieldDescriptorProto) (ctor ser size clear methods : SW) :
    Except GenError (W × SW × SW × SW × SW × SW) := do
  let field_cpp_type ← field_type_to_cpp_type field
  let repeated := field.label == LABEL_REPEATED
  let element_cpp_type := field_cpp_type
  let field_cpp_type :=
    if repeated then strOf "std::vector< " ++ field_cpp_type ++ strOf " >" else field_cpp_type
  let member_name := field.name ++ ['_']
  let element_name := member_name
  let w := w.writelines (strOf "\n            " ++ field_cpp_type ++ strOf " " ++ member_name ++
    strOf ";\n            bool has_" ++ member_name ++ strOf ";\n        ")
  let ctor := ctor.writelines
    (strOf "\n            has_" ++ member_name ++ strOf " = false;\n        ")
  let methods := methods.writelines (strOf "\n                " ++ field_cpp_type ++
    strOf "* mutable_" ++ field.name ++ strOf "() \x7b\n                  has_" ++
    member_name ++ strOf " = true;\n                  return &" ++ member_name ++
    strOf ";\n                \x7d\n            ")
  let loop := strOf "\n                for (" ++ field_cpp_type ++
    strOf "::const_iterator it_ = " ++ member_name ++
    strOf ".begin();\n                    it_ != " ++ member_name ++
    strOf ".end(); it_++) \x7b\n            "
  let ser := if repeated then (ser.writelines loop).indent else ser
  let size := if repeated then (size.writelines loop).indent else size
  let methods :=
    if repeated then
      methods.writelines (strOf "\n                void add_" ++ field.name ++
        strOf "(const " ++ element_cpp_type ++
        strOf "& value) \x7b\n                  has_" ++ member_name ++
        strOf " = true;\n                  " ++ member_name ++
        strOf ".push_back(value);\n                \x7d\n            ")
    else methods
  let element_name := if repeated then strOf "*it_" else element_name
  let r ←
    if field.type == TYPE_MESSAGE then
      let ser := ser.writelines (strOf "\n                if (has_" ++ element_name ++
        strOf ") \x7b\n                  WriteLengthDelimited(output__, " ++
        natToDec field.number ++
        strOf ",\n                                       " ++ element_name ++
        strOf ".ByteSizeLong());\n                  " ++ element_name ++
        strOf ".SerializeToOstream(output__);\n                \x7d\n            ")
      let size := size.writelines (strOf "\n                if (has_" ++ element_name ++
        strOf ") \x7b\n                  size += 1 + VarintSize32(" ++ element_name ++
        strOf ".ByteSizeLong());\n                  size += " ++ element_name ++
        strOf ".ByteSizeLong();\n                \x7d\n            ")
      let clear := clear.writelines (strOf "\n                if (has_" ++ member_name ++
        strOf ") \x7b\n                  " ++ member_name ++
        strOf ".Clear();\n                  has_" ++ member_name ++
        strOf " = false;\n                \x7d\n            ")
      pure (ctor, ser, size, clear, methods)
    else
      match ENCODING_MAP field.type with
      | none => Except.error (GenError.keyError field.type)
      | some (sizer, serializer, formatter) =>
        let element_name :=
          match formatter with
          | none => element_name
          | some f => f ++ strOf "(" ++ element_name ++ strOf ")"
        let ser := ser.writelines (strOf "\n                " ++ serializer ++
          strOf "(output__, " ++ natToDec field.number ++ strOf ", " ++ element_name ++
          strOf ");\n            ")
        let size := size.writelines (strOf "\n                size += " ++ sizer ++
          strOf "(" ++ element_name ++ strOf ") + 1;\n            ")
        let (ctor, clear) :=
          if repeated || field.type == CPPTYPE_STRING then
            (ctor, clear.writelines (strOf "\n                    " ++ member_name ++
              strOf ".clear();\n                "))
          else
            let reset := strOf "\n                    " ++ member_name ++
              strOf " = static_cast< " ++ field_cpp_type ++ strOf " >(0);\n                "
            (ctor.writelines reset, clear.writelines reset)
        let methods := methods.writelines (strOf "\n                void set_" ++
          field.name ++ strOf "(const " ++ field_cpp_type ++
          strOf "& value) \x7b\n                  has_" ++ member_name ++
          strOf " = true;\n                  " ++ member_name ++
          strOf " = value;\n                \x7d\n            ")
        pure (ctor, ser, size, clear, methods)
  let (ctor, ser, size, clear, methods) := r
  let ser := if repeated then (ser.unindent).writelines (strOf "\x7d") else ser
  let size := if repeated then (size.unindent).writelines (strOf "\x7d") else size
  .ok (w, ctor, ser, size, clear, methods)

/-- Embeds `Generator.write_enum`. -/
def write_enum (w : W) (enum : EnumDescriptorProto) : W :=
  let w := w.writelines (strOf "\n            enum " ++ enum.name ++ strOf " \x7b\n        ")
  let w := w.indent
  let w := enum.value.foldl (fun w v =>
    w.writelines (strOf "\n                " ++ v.name ++ strOf " = " ++
      intToDec v.number ++ strOf ",\n            ")) w
  let w := w.unindent
  w.writelines (strOf "\n        \x7d;\n\n        ")

/-- Embeds `Generator.func`: a buffered writer whose prefix is the method
head followed by an opening brace and whose suffix closes the brace. -/
def func (w : W) (f : Str) : SW :=
  SW.make w.curIndent (f ++ strOf " \x7b") (strOf "\x7d\n\n")

/-- The field loop of `write_message`, threading all six writers. -/
def write_fields (w : W) (ctor ser size clear methods : SW) :
    List FieldDescriptorProto → Except GenError (W × SW × SW × SW × SW × SW)
  | [] => .ok (w, ctor, ser, size, clear, methods)
  | f :: rest => do
    let r ← write_field w f ctor ser size clear methods
    write_fields r.1 r.2.1 r.2.2.1 r.2.2.2.1 r.2.2.2.2.1 r.2.2.2.2.2 rest

mutual

/-- Embeds `Generator.write_message`: nested messages first (depth-first),
then nested enums, then the field loop populating the five buffers, then
the buffers spliced in source order. -/
def write_message (w : W) (m : DescriptorProto) : Except GenError W :=
  match m with
  | .mk mname mfield mnested menum => do
    let w := w.writelines (strOf "\n            struct " ++ mname ++ strOf " \x7b\n        ")
    let w := w.indent
    let ctor := func w (mname ++ strOf "()")
    let ser := func w (strOf "void SerializeToOstream(std::ostream* output__) const")
    let size := func w (strOf "size_t ByteSizeLong() const")
    let size := size.writelines (strOf "\n            size_t size = 0;\n        ")
    let clear := func w (strOf "void Clear()")
    let methods := SW.make w.curIndent [] []
    let w ← write_messages w mnested
    let w := menum.foldl write_enum w
    let r ← write_fields w ctor ser size clear methods mfield
    let (w, ctor, ser, size, clear, methods) := r
    let w := if mfield.length > 0 then w.newline else w
    let w := w.writelines ctor.string
    let w := w.writelines (strOf "\n            " ++ mname ++ strOf "(const " ++ mname ++
      strOf "&);\n            void operator=(const " ++ mname ++ strOf "&);\n\n        ")
    let w := w.writelines ser.string
    let size := size.writelines (strOf "return size;")
    let w := w.writelines size.string
    let w := w.writelines clear.string
    let w := w.write methods.string
    let w := w.unindent
    .ok (w.writelines (strOf "\n            \x7d;\n\n        "))
termination_by structural m

/-- The nested-message loop of `write_message`. -/
def write_messages (w : W) (ms : List DescriptorProto) : Except GenError W :=
  match ms with
  | [] => .ok w
  | m :: rest => do
    let w ← write_message w m
    write_messages w rest
termination_by structural ms

end

/-- Models `os.path.basename` for POSIX paths: the part after the last
slash. -/
def basename (s : Str) : Str := (s.reverse.takeWhile (fun c => c ≠ '/')).reverse

/-- The header-guard computation of `write_proto`:
`re.sub('[^a-zA-Z]', '_', ('NINJA_' + basename(output_file)).upper())`. -/
def header_guard_of (output_file : Str) : Str :=
  (strOf "NINJA_" ++ (basename output_file).map Char.toUpper).map
    (fun c => if c.isAlpha then c else '_')

/-- Embeds `Generator.write_proto`: banner, header guard, includes and
namespace, then top-level enums and messages, then the closing lines. -/
def write_proto (w : W) (argv0 : Str) (output_file : Str) (proto : FileDescriptorProto) :
    Except GenError W := do
  let header_guard := header_guard_of output_file
  let w := w.writelines (strOf "\n            // This file is autogenerated by " ++
    basename argv0 ++ strOf ", do not edit\n\n            #ifndef " ++ header_guard ++
    strOf "\n            #define " ++ header_guard ++
    strOf "\n\n            #include <inttypes.h>\n\n            #include <iostream>\n            #include <string>\n            #include <vector>\n\n            #include \"proto.h\"\n\n            namespace " ++
    proto.package ++ strOf " \x7b\n        ")
  let w := proto.enum_type.foldl write_enum w
  let w ← write_messages w proto.message_type
  .ok (w.writelines (strOf "\n        \x7d\n        #endif // " ++ header_guard ++
    strOf "\n        "))

/-! ## The driver (`main`) -/

/-- The outcome of reading and parsing the input descriptor set: an
`IOError` while reading, a protobuf decode error while parsing, or the
parsed list of file descriptors. -/
inductive InputRead where
  | ioError
  | decodeError
  | parsed (files : List FileDescriptorProto)

/-- The environment `main` runs in: the argument vector and the input
file's fate. -/
structure Env where
  argv : List Str
  input : InputRead

/-- The observable result of a run: the process exit status and the content
at the final output path (`none` when the final path is untouched). -/
structure RunResult where
  exitCode : Nat
  finalWrite : Option Str

/-- Embeds `main`: probe mode, usage check, input read (exit 2 on
`IOError`), descriptor-count check (exit 3), then generation into a
temporary file that is renamed onto the final path only after generation
completes.  An exception escaping generation (a `KeyError`, or the decode
error from `ParseFromString`) terminates the interpreter with exit status 1
and the final path untouched. -/
def mainModel (e : Env) : RunResult :=
  match e.argv with
  | [_, arg1] => if arg1 = strOf "--probe" then ⟨0, none⟩ else ⟨1, none⟩
  | [argv0, _inputFile, output_file] =>
    (match e.input with
     | .ioError => ⟨2, none⟩
     | .decodeError => ⟨1, none⟩
     | .parsed files =>
       match files with
       | [proto] =>
         (match write_proto ⟨[], 0⟩ argv0 output_file proto with
          | .error _ => ⟨1, none⟩
          | .ok w => ⟨0, some w.buf⟩)
       | _ => ⟨3, none⟩)
  | _ => ⟨1, none⟩

/-! ## Wire-format model of the tiny runtime

The generated code calls helpers from `src/proto.h` / `src/proto.cc`, which
are not among the sources at hand; the helpers below are modelled from the
specification's description of the wire format (varint, zigzag, fixed-width
little-endian, length-delimited framing, one-byte tag keys for field
numbers below 16). -/

/-- The loop of the varint encoder, structurally recursive on a fuel
argument that strictly dominates the number of 7-bit groups. -/
def varintAux : Nat → Nat → List Nat
  | 0, _ => []
  | fuel + 1, n => if n < 128 then [n] else (n % 128 + 128) :: varintAux fuel (n / 128)

/-- Modelled from the spec: base-128 varint encoding — 7 value bits plus a
continuation bit per byte, least significant group first. -/
def varintEnc (n : Nat) : List Nat := varintAux (n + 1) n

theorem varintAux_fuel_irrel (fuel fuel' n : Nat) (h : n < fuel) (h' : n < fuel') :
    varintAux fuel n = varintAux fuel' n := by
  induction fuel generalizing fuel' n with
  | zero => omega
  | succ fuel ih =>
    cases fuel' with
    | zero => omega
    | succ fuel' =>
      by_cases hs : n < 128
      · simp [varintAux, hs]
      · have hd : n / 128 < n := Nat.div_lt_self (by omega) (by omega)
        simp only [varintAux, if_neg hs]
        rw [ih fuel' (n / 128) (by omega) (by omega)]

theorem varintEnc_eq (n : Nat) :
    varintEnc n = if n < 128 then [n] else (n % 128 + 128) :: varintEnc (n / 128) := by
  by_cases hs : n < 128
  · simp [varintEnc, varintAux, hs]
  · have hd : n / 128 < n := Nat.div_lt_self (by omega) (by omega)
    rw [if_neg hs,
      show varintEnc n =
        (if n < 128 then [n] else (n % 128 + 128) :: varintAux n (n / 128)) from rfl,
      if_neg hs]
    exact congrArg _ (varintAux_fuel_irrel n (n / 128 + 1) (n / 128) (by omega) (by omega))

theorem varintEnc_small (n : Nat) (h : n < 128) : varintEnc n = [n] := by
  rw [varintEnc_eq]
  simp [h]

theorem varintEnc_ne_nil (n : Nat) : varintEnc n ≠ [] := by
  rw [varintEnc_eq]
  split <;> simp

/-- Two's-complement conversion to an unsigned 32-bit value (the C++
conversion to `uint32_t` for integral arguments). -/
def toU32 (v : Int) : Nat := (v % (2 ^ 32 : Int)).toNat

/-- Two's-complement conversion to an unsigned 64-bit value. -/
def toU64 (v : Int) : Nat := (v % (2 ^ 64 : Int)).toNat

/-- Two's-complement wrap into signed 32-bit range. -/
def toI32 (v : Int) : Int := (v + 2 ^ 31) % 2 ^ 32 - 2 ^ 31

/-- Two's-complement wrap into signed 64-bit range. -/
def toI64 (v : Int) : Int := (v + 2 ^ 63) % 2 ^ 64 - 2 ^ 63

/-- Modelled from the spec: the zigzag bijection mapping small-magnitude
signed values near zero. -/
def zigzagEnc (v : Int) : Nat := (if 0 ≤ v then 2 * v else -2 * v - 1).toNat

/-- Fixed-width little-endian byte rendering. -/
def leBytes : Nat → Nat → List Nat
  | 0, _ => []
  | w + 1, v => v % 256 :: leBytes w (v / 256)

theorem leBytes_length (w v : Nat) : (leBytes w v).length = w := by
  induction w generalizing v with
  | zero => rfl
  | succ w ih => simp [leBytes, ih]

/-- Modelled from the spec: the tag-and-wire-type key of a field. -/
def tagKey (number : Nat) (wt : Nat) : Nat := number * 8 + wt

theorem tagKey_varint (number wt : Nat) (hn : number < 16) (hw : wt ≤ 7) :
    varintEnc (tagKey number wt) = [tagKey number wt] := by
  apply varintEnc_small
  unfold tagKey
  omega

/-- Modelled from the spec: `WriteVarint32` — tag key then varint of the
32-bit value. -/
def WriteVarint32 (number : Nat) (v : Nat) : List Nat :=
  varintEnc (tagKey number 0) ++ varintEnc v

/-- Modelled from the spec: `WriteVarint64`. -/
def WriteVarint64 (number : Nat) (v : Nat) : List Nat :=
  varintEnc (tagKey number 0) ++ varintEnc v

/-- Modelled from the spec: `WriteVarint32SignExtended` — the signed 32-bit
value is sign-extended to 64 bits before varint encoding. -/
def WriteVarint32SignExtended (number : Nat) (v : Int) : List Nat :=
  varintEnc (tagKey number 0) ++ varintEnc (toU64 v)

/-- Modelled from the spec: `VarintSize32`. -/
def VarintSize32 (v : Nat) : Nat := (varintEnc v).length

/-- Modelled from the spec: `VarintSize64`. -/
def VarintSize64 (v : Nat) : Nat := (varintEnc v).length

/-- Modelled from the spec: `VarintSize32SignExtended` — size after the
same sign extension the writer applies. -/
def VarintSize32SignExtended (v : Int) : Nat := (varintEnc (toU64 v)).length

/-- Modelled from the spec: `WriteFixed32` — tag key (wire type 5) then
4 little-endian bytes. -/
def WriteFixed32 (number : Nat) (v : Nat) : List Nat :=
  varintEnc (tagKey number 5) ++ leBytes 4 v

/-- Modelled from the spec: `WriteFixed64`. -/
def WriteFixed64 (number : Nat) (v : Nat) : List Nat :=
  varintEnc (tagKey number 1) ++ leBytes 8 v

/-- Modelled from the spec: `WriteString` — tag key (wire type 2), varint
byte length, raw bytes. -/
def WriteString (number : Nat) (s : List Nat) : List Nat :=
  varintEnc (tagKey number 2) ++ varintEnc s.length ++ s

/-- Modelled from the spec: `StringSize` — varint length plus payload. -/
def StringSize (s : List Nat) : Nat := (varintEnc s.length).length + s.length

/-- Modelled from the spec: `WriteLengthDelimited` — tag key (wire type 2)
and the varint of the declared length. -/
def WriteLengthDelimited (number : Nat) (len : Nat) : List Nat :=
  varintEnc (tagKey number 2) ++ varintEnc len

/-! ## Semantics of the generated code

A stored C++ field value.  Float/double storage is represented by the
integral value that the emitted `static_cast` conversion yields (only that
converted value ever reaches the wire in the generated code). -/

inductive CVal where
  | int (v : Int)
  | boolean (b : Bool)
  | bytes (s : List Nat)
deriving Repr, DecidableEq

/-- C++ implicit conversion of an argument to `uint32_t`. -/
def cvalToU32 : CVal → Nat
  | .int v => toU32 v
  | .boolean b => if b then 1 else 0
  | .bytes _ => 0

/-- C++ implicit conversion of an argument to `uint64_t`. -/
def cvalToU64 : CVal → Nat
  | .int v => toU64 v
  | .boolean b => if b then 1 else 0
  | .bytes _ => 0

/-- C++ implicit conversion of an argument to `int32_t`. -/
def cvalToI32 : CVal → Int
  | .int v => toI32 v
  | .boolean b => if b then 1 else 0
  | .bytes _ => 0

/-- C++ implicit conversion of an argument to `int64_t`. -/
def cvalToI64 : CVal → Int
  | .int v => toI64 v
  | .boolean b => if b then 1 else 0
  | .bytes _ => 0

/-- The byte content of a `std::string` argument. -/
def cvalToBytes : CVal → List Nat
  | .bytes s => s
  | _ => []

/-- Semantics of the value transform named by the third `ENCODING_MAP`
component, as it appears wrapped around the element in the emitted
serialize/size calls. -/
def applyFmt (formatter : Option Str) (v : CVal) : CVal :=
  match formatter with
  | none => v
  | some f =>
    if f = strOf "ZigZagEncode32" then .int (zigzagEnc (cvalToI32 v))
    else if f = strOf "ZigZagEncode64" then .int (zigzagEnc (cvalToI64 v))
    else if f = strOf "static_cast<int32_t>" then .int (cvalToI32 v)
    else if f = strOf "static_cast<uint32_t>" then .int (cvalToU32 v)
    else if f = strOf "static_cast<uint64_t>" then .int (cvalToU64 v)
    else v

/-- Semantics of one emitted write call, dispatched on the runtime helper
named by the second `ENCODING_MAP` component. -/
def applyWrite (writer : Str) (number : Nat) (v : CVal) : List Nat :=
  if writer = strOf "WriteVarint32" then WriteVarint32 number (cvalToU32 v)
  else if writer = strOf "WriteVarint64" then WriteVarint64 number (cvalToU64 v)
  else if writer = strOf "WriteVarint32SignExtended" then
    WriteVarint32SignExtended number (cvalToI32 v)
  else if writer = strOf "WriteFixed32" then WriteFixed32 number (cvalToU32 v)
  else if writer = strOf "WriteFixed64" then WriteFixed64 number (cvalToU64 v)
  else if writer = strOf "WriteString" then WriteString number (cvalToBytes v)
  else []

/-- Semantics of one emitted size call, dispatched on the runtime helper
named by the first `ENCODING_MAP` component. -/
def applySize (sizer : Str) (v : CVal) : Nat :=
  if sizer = strOf "VarintSize32SignExtended" then VarintSize32SignExtended (cvalToI32 v)
  else if sizer = strOf "VarintSize64" then VarintSize64 (cvalToU64 v)
  else if sizer = strOf "VarintSize32" then VarintSize32 (cvalToU32 v)
  else if sizer = strOf "VarintSizeBool" then 1
  else if sizer = strOf "FixedSize64" then 8
  else if sizer = strOf "FixedSize32" then 4
  else if sizer = strOf "StringSize" then StringSize (cvalToBytes v)
  else 0

/-- Runtime storage of one generated field: a singular scalar member with
its presence flag, a repeated vector member with its presence flag, or a
singular submessage member with its presence flag.  (The code the
generator emits for *repeated message* fields does not compile — its guard
reads `has_*it_` — so that shape has no runtime semantics and is not
modelled.) -/
inductive FieldStorage where
  | single (has : Bool) (v : CVal)
  | many (has : Bool) (vs : List CVal)
  | subMsg (has : Bool) (fields : List (FieldDescriptorProto × FieldStorage))

mutual

/-- Semantics of the size fragment `write_field` emits for one field:
`size += sizer(elem) + 1` per element for non-message fields, and the
guarded `1 + VarintSize32(len) + len` contribution for singular message
fields. -/
def sizeFieldSem (f : FieldDescriptorProto) (st : FieldStorage) : Nat :=
  match st with
  | .single _ v =>
    if f.type = TYPE_MESSAGE then 0
    else
      match ENCODING_MAP f.type with
      | some (sizer, _, formatter) => applySize sizer (applyFmt formatter v) + 1
      | none => 0
  | .many _ vs =>
    if f.type = TYPE_MESSAGE then 0
    else
      match ENCODING_MAP f.type with
      | some (sizer, _, formatter) =>
        vs.foldr (fun v acc => (applySize sizer (applyFmt formatter v) + 1) + acc) 0
      | none => 0
  | .subMsg has fields =>
    if f.type = TYPE_MESSAGE then
      if has then (1 + VarintSize32 (sizeMsgSem fields)) + sizeMsgSem fields
      else 0
    else 0
termination_by structural st

/-- Semantics of the generated `ByteSizeLong` body. -/
def sizeMsgSem (fields : List (FieldDescriptorProto × FieldStorage)) : Nat :=
  match fields with
  | [] => 0
  | (f, st) :: rest => sizeFieldSem f st + sizeMsgSem rest
termination_by structural fields

end

mutual

/-- Semantics of the serialize fragment `write_field` emits for one field:
unguarded write calls for non-message fields (one per element for repeated
fields, in storage order), and a presence-guarded length-delimited frame
plus recursive serialize for singular message fields (whose declared
length is an independent `ByteSizeLong` pass over the submessage). -/
def serFieldSem (f : FieldDescriptorProto) (st : FieldStorage) : List Nat :=
  match st with
  | .single _ v =>
    if f.type = TYPE_MESSAGE then []
    else
      match ENCODING_MAP f.type with
      | some (_, writer, formatter) => applyWrite writer f.number (applyFmt formatter v)
      | none => []
  | .many _ vs =>
    if f.type = TYPE_MESSAGE then []
    else
      match ENCODING_MAP f.type with
      | some (_, writer, formatter) =>
        vs.foldr (fun v acc => applyWrite writer f.number (applyFmt formatter v) ++ acc) []
      | none => []
  | .subMsg has fields =>
    if f.type = TYPE_MESSAGE then
      if has then WriteLengthDelimited f.number (sizeMsgSem fields) ++ serMsgSem fields
      else []
    else []
termination_by structural st

/-- Semantics of the generated `SerializeToOstream` body: the fields'
fragments in declaration order. -/
def serMsgSem (fields : List (FieldDescriptorProto × FieldStorage)) : List Nat :=
  match fields with
  | [] => []
  | (f, st) :: rest => serFieldSem f st ++ serMsgSem rest
termination_by structural fields

end

/-- The value the scalar reset `member_ = static_cast< T >(0);` leaves in
the member.  For `TYPE_BYTES` the emitted C++ constructs a `std::string`
from a null pointer (undefined behaviour); it is represented here by the
empty string, but no theorem below depends on that case. -/
def staticCastZero (t : Nat) : CVal :=
  if t = TYPE_BOOL then .boolean false
  else if t = TYPE_BYTES then .bytes []
  else .int 0

mutual

/-- Semantics of the clear fragment `write_field` emits for one field:
message fields are recursively cleared and their presence flag reset (only
when set); `repeated` and string fields get `member_.clear()`; all other
fields get the scalar reset.  No fragment touches a non-message field's
presence flag. -/
def clearFieldSem (f : FieldDescriptorProto) (st : FieldStorage) : FieldStorage :=
  match st with
  | .subMsg has fields =>
    if f.type = TYPE_MESSAGE then
      if has then .subMsg false (clearMsgSem fields) else .subMsg has fields
    else .subMsg has fields
  | .many has _ => .many has []
  | .single has v =>
    if f.type = TYPE_MESSAGE then .single has v
    else if f.label = LABEL_REPEATED ∨ f.type = CPPTYPE_STRING then .single has (.bytes [])
    else .single has (staticCastZero f.type)

/-- Semantics of the generated `Clear` body. -/
def clearMsgSem : List (FieldDescriptorProto × FieldStorage) →
    List (FieldDescriptorProto × FieldStorage)
  | [] => []
  | (f, st) :: rest => (f, clearFieldSem f st) :: clearMsgSem rest

end

/-- A stored value of the C++ type the generator declares for wire kind
`t`. -/
def valMatches (t : Nat) (v : CVal) : Bool :=
  if t == TYPE_BOOL then (match v with | .boolean _ => true | _ => false)
  else if t == TYPE_STRING || t == TYPE_BYTES then
    (match v with | .bytes _ => true | _ => false)
  else (match v with | .int _ => true | _ => false)

mutual

/-- Well-formed field/storage pair: the storage shape matches the label,
the wire kind is supported, the stored values have the declared C++ type,
and the field number fits a one-byte tag key (the generator hardcodes a
one-byte key contribution). -/
def wfField (f : FieldDescriptorProto) (st : FieldStorage) : Bool :=
  match st with
  | .single _ v =>
    (f.label != LABEL_REPEATED) && (f.type != TYPE_MESSAGE) &&
      (ENCODING_MAP f.type).isSome && decide (f.number < 16) && valMatches f.type v
  | .many _ vs =>
    (f.label == LABEL_REPEATED) && (f.type != TYPE_MESSAGE) &&
      (ENCODING_MAP f.type).isSome && decide (f.number < 16) &&
      vs.all (valMatches f.type)
  | .subMsg _ fields =>
    (f.label != LABEL_REPEATED) && (f.type == TYPE_MESSAGE) &&
      decide (f.number < 16) && wfMsg fields

/-- Well-formed message state. -/
def wfMsg : List (FieldDescriptorProto × FieldStorage) → Bool
  | [] => true
  | (f, st) :: rest => wfField f st && wfMsg rest

end

/-! ## Size/serialize agreement (C1 machinery) -/

theorem applyFmt_none (v : CVal) : applyFmt none v = v := rfl

theorem applyFmt_zz32 (v : CVal) :
    applyFmt (some (strOf "ZigZagEncode32")) v = .int (zigzagEnc (cvalToI32 v)) := by
  simp [applyFmt, strOf]

theorem applyFmt_zz64 (v : CVal) :
    applyFmt (some (strOf "ZigZagEncode64")) v = .int (zigzagEnc (cvalToI64 v)) := by
  simp [applyFmt, strOf]

theorem applyFmt_sci32 (v : CVal) :
    applyFmt (some (strOf "static_cast<int32_t>")) v = .int (cvalToI32 v) := by
  simp [applyFmt, strOf]

theorem applyFmt_scu32 (v : CVal) :
    applyFmt (some (strOf "static_cast<uint32_t>")) v = .int (cvalToU32 v) := by
  simp [applyFmt, strOf]

theorem applyFmt_scu64 (v : CVal) :
    applyFmt (some (strOf "static_cast<uint64_t>")) v = .int (cvalToU64 v) := by
  simp [applyFmt, strOf]

theorem aw_v32 (n : Nat) (v : CVal) :
    applyWrite (strOf "WriteVarint32") n v = WriteVarint32 n (cvalToU32 v) := by
  simp [applyWrite, strOf]

theorem aw_v64 (n : Nat) (v : CVal) :
    applyWrite (strOf "WriteVarint64") n v = WriteVarint64 n (cvalToU64 v) := by
  simp [applyWrite, strOf]

theorem aw_v32se (n : Nat) (v : CVal) :
    applyWrite (strOf "WriteVarint32SignExtended") n v =
      WriteVarint32SignExtended n (cvalToI32 v) := by
  simp [applyWrite, strOf]

theorem aw_f32 (n : Nat) (v : CVal) :
    applyWrite (strOf "WriteFixed32") n v = WriteFixed32 n (cvalToU32 v) := by
  simp [applyWrite, strOf]

theorem aw_f64 (n : Nat) (v : CVal) :
    applyWrite (strOf "WriteFixed64") n v = WriteFixed64 n (cvalToU64 v) := by
  simp [applyWrite, strOf]

theorem aw_str (n : Nat) (v : CVal) :
    applyWrite (strOf "WriteString") n v = WriteString n (cvalToBytes v) := by
  simp [applyWrite, strOf]

theorem as_v32se (v : CVal) :
    applySize (strOf "VarintSize32SignExtended") v = VarintSize32SignExtended (cvalToI32 v) := by
  simp [applySize, strOf]

theorem as_v64 (v : CVal) : applySize (strOf "VarintSize64") v = VarintSize64 (cvalToU64 v) := by
  simp [applySize, strOf]

theorem as_v32 (v : CVal) : applySize (strOf "VarintSize32") v = VarintSize32 (cvalToU32 v) := by
  simp [applySize, strOf]

theorem as_bool (v : CVal) : applySize (strOf "VarintSizeBool") v = 1 := by
  simp [applySize, strOf]

theorem as_f64 (v : CVal) : applySize (strOf "FixedSize64") v = 8 := by
  simp [applySize, strOf]

theorem as_f32 (v : CVal) : applySize (strOf "FixedSize32") v = 4 := by
  simp [applySize, strOf]

theorem as_str (v : CVal) : applySize (strOf "StringSize") v = StringSize (cvalToBytes v) := by
  simp [applySize, strOf]

theorem encMap_none_of_out (t : Nat) (h0 : t = 0 ∨ 18 < t) : ENCODING_MAP t = none := by
  rcases h0 with rfl | hgt
  · rfl
  · unfold ENCODING_MAP
    rw [if_neg (show t ≠ TYPE_INT32 by unfold TYPE_INT32; omega),
      if_neg (show t ≠ TYPE_INT64 by unfold TYPE_INT64; omega),
      if_neg (show t ≠ TYPE_UINT32 by unfold TYPE_UINT32; omega),
      if_neg (show t ≠ TYPE_UINT64 by unfold TYPE_UINT64; omega),
      if_neg (show t ≠ TYPE_SINT32 by unfold TYPE_SINT32; omega),
      if_neg (show t ≠ TYPE_SINT64 by unfold TYPE_SINT64; omega),
      if_neg (show t ≠ TYPE_BOOL by unfold TYPE_BOOL; omega),
      if_neg (show t ≠ TYPE_ENUM by unfold TYPE_ENUM; omega),
      if_neg (show t ≠ TYPE_FIXED64 by unfold TYPE_FIXED64; omega),
      if_neg (show t ≠ TYPE_SFIXED64 by unfold TYPE_SFIXED64; omega),
      if_neg (show t ≠ TYPE_DOUBLE by unfold TYPE_DOUBLE; omega),
      if_neg (show t ≠ TYPE_STRING by unfold TYPE_STRING; omega),
      if_neg (show t ≠ TYPE_BYTES by unfold TYPE_BYTES; omega),
      if_neg (show t ≠ TYPE_FIXED32 by unfold TYPE_FIXED32; omega),
      if_neg (show t ≠ TYPE_SFIXED32 by unfold TYPE_SFIXED32; omega),
      if_neg (show t ≠ TYPE_FLOAT by unfold TYPE_FLOAT; omega)]

theorem swl_se_none (number : Nat) (v : CVal) (hn : number < 16) :
    (applyWrite (strOf "WriteVarint32SignExtended") number (applyFmt none v)).length =
      applySize (strOf "VarintSize32SignExtended") (applyFmt none v) + 1 := by
  rw [applyFmt_none, aw_v32se, as_v32se]
  unfold WriteVarint32SignExtended VarintSize32SignExtended
  rw [tagKey_varint number 0 hn (by omega)]
  simp [List.length_append]

theorem swl_v64_none (number : Nat) (v : CVal) (hn : number < 16) :
    (applyWrite (strOf "WriteVarint64") number (applyFmt none v)).length =
      applySize (strOf "VarintSize64") (applyFmt none v) + 1 := by
  rw [applyFmt_none, aw_v64, as_v64]
  unfold WriteVarint64 VarintSize64
  rw [tagKey_varint number 0 hn (by omega)]
  simp [List.length_append]

theorem swl_v32_none (number : Nat) (v : CVal) (hn : number < 16) :
    (applyWrite (strOf "WriteVarint32") number (applyFmt none v)).length =
      applySize (strOf "VarintSize32") (applyFmt none v) + 1 := by
  rw [applyFmt_none, aw_v32, as_v32]
  unfold WriteVarint32 VarintSize32
  rw [tagKey_varint number 0 hn (by omega)]
  simp [List.length_append]

theorem swl_v32_zz32 (number : Nat) (v : CVal) (hn : number < 16) :
    (applyWrite (strOf "WriteVarint32") number
        (applyFmt (some (strOf "ZigZagEncode32")) v)).length =
      applySize (strOf "VarintSize32") (applyFmt (some (strOf "ZigZagEncode32")) v) + 1 := by
  rw [applyFmt_zz32, aw_v32, as_v32]
  unfold WriteVarint32 VarintSize32
  rw [tagKey_varint number 0 hn (by omega)]
  simp [List.length_append]

theorem swl_v64_zz64 (number : Nat) (v : CVal) (hn : number < 16) :
    (applyWrite (strOf "WriteVarint64") number
        (applyFmt (some (strOf "ZigZagEncode64")) v)).length =
      applySize (strOf "VarintSize64") (applyFmt (some (strOf "ZigZagEncode64")) v) + 1 := by
  rw [applyFmt_zz64, aw_v64, as_v64]
  unfold WriteVarint64 VarintSize64
  rw [tagKey_varint number 0 hn (by omega)]
  simp [List.length_append]

theorem swl_bool (number : Nat) (b : Bool) (hn : number < 16) :
    (applyWrite (strOf "WriteVarint32") number (applyFmt none (.boolean b))).length =
      applySize (strOf "VarintSizeBool") (applyFmt none (.boolean b)) + 1 := by
  rw [applyFmt_none, aw_v32, as_bool]
  unfold WriteVarint32
  rw [tagKey_varint number 0 hn (by omega)]
  cases b <;> simp [cvalToU32, varintEnc_small]

theorem swl_se_sci32 (number : Nat) (v : CVal) (hn : number < 16) :
    (applyWrite (strOf "WriteVarint32SignExtended") number
        (applyFmt (some (strOf "static_cast<int32_t>")) v)).length =
      applySize (strOf "VarintSize32SignExtended")
        (applyFmt (some (strOf "static_cast<int32_t>")) v) + 1 := by
  rw [applyFmt_sci32, aw_v32se, as_v32se]
  unfold WriteVarint32SignExtended VarintSize32SignExtended
  rw [tagKey_varint number 0 hn (by omega)]
  simp [List.length_append]

theorem swl_f64_none (number : Nat) (v : CVal) (hn : number < 16) :
    (applyWrite (strOf "WriteFixed64") number (applyFmt none v)).length =
      applySize (strOf "FixedSize64") (applyFmt none v) + 1 := by
  rw [applyFmt_none, aw_f64, as_f64]
  unfold WriteFixed64
  rw [tagKey_varint number 1 hn (by omega)]
  simp [List.length_append, leBytes_length]

theorem swl_f64_scu64 (number : Nat) (v : CVal) (hn : number < 16) :
    (applyWrite (strOf "WriteFixed64") number
        (applyFmt (some (strOf "static_cast<uint64_t>")) v)).length =
      applySize (strOf "FixedSize64") (applyFmt (some (strOf "static_cast<uint64_t>")) v) + 1 := by
  rw [applyFmt_scu64, aw_f64, as_f64]
  unfold WriteFixed64
  rw [tagKey_varint number 1 hn (by omega)]
  simp [List.length_append, leBytes_length]

theorem swl_str_none (number : Nat) (v : CVal) (hn : number < 16) :
    (applyWrite (strOf "WriteString") number (applyFmt none v)).length =
      applySize (strOf "StringSize") (applyFmt none v) + 1 := by
  rw [applyFmt_none, aw_str, as_str]
  unfold WriteString StringSize
  rw [tagKey_varint number 2 hn (by omega)]
  simp [List.length_append]

theorem swl_f32_none (number : Nat) (v : CVal) (hn : number < 16) :
    (applyWrite (strOf "WriteFixed32") number (applyFmt none v)).length =
      applySize (strOf "FixedSize32") (applyFmt none v) + 1 := by
  rw [applyFmt_none, aw_f32, as_f32]
  unfold WriteFixed32
  rw [tagKey_varint number 5 hn (by omega)]
  simp [List.length_append, leBytes_length]

theorem swl_f32_scu32 (number : Nat) (v : CVal) (hn : number < 16) :
    (applyWrite (strOf "WriteFixed32") number
        (applyFmt (some (strOf "static_cast<uint32_t>")) v)).length =
      applySize (strOf "FixedSize32") (applyFmt (some (strOf "static_cast<uint32_t>")) v) + 1 := by
  rw [applyFmt_scu32, aw_f32, as_f32]
  unfold WriteFixed32
  rw [tagKey_varint number 5 hn (by omega)]
  simp [List.length_append, leBytes_length]

theorem scalar_write_length (t : Nat) (sizer writer : Str) (formatter : Option Str)
    (number : Nat) (v : CVal)
    (henc : ENCODING_MAP t = some (sizer, writer, formatter))
    (hv : valMatches t v = true) (hn : number < 16) :
    (applyWrite writer number (applyFmt formatter v)).length =
      applySize sizer (applyFmt formatter v) + 1 := by
  have hb : 1 ≤ t ∧ t ≤ 18 := by
    by_contra hc
    rw [encMap_none_of_out t (by omega)] at henc
    exact Option.noConfusion henc
  obtain ⟨hb1, hb2⟩ := hb
  interval_cases t
  · rw [show ENCODING_MAP 1 = some (strOf "FixedSize64", strOf "WriteFixed64",
      some (strOf "static_cast<uint64_t>")) from rfl] at henc
    simp only [Option.some.injEq, Prod.mk.injEq] at henc
    obtain ⟨rfl, rfl, rfl⟩ := henc
    exact swl_f64_scu64 number v hn
  · rw [show ENCODING_MAP 2 = some (strOf "FixedSize32", strOf "WriteFixed32",
      some (strOf "static_cast<uint32_t>")) from rfl] at henc
    simp only [Option.some.injEq, Prod.mk.injEq] at henc
    obtain ⟨rfl, rfl, rfl⟩ := henc
    exact swl_f32_scu32 number v hn
  · rw [show ENCODING_MAP 3 = some (strOf "VarintSize64", strOf "WriteVarint64",
      none) from rfl] at henc
    simp only [Option.some.injEq, Prod.mk.injEq] at henc
    obtain ⟨rfl, rfl, rfl⟩ := henc
    exact swl_v64_none number v hn
  · rw [show ENCODING_MAP 4 = some (strOf "VarintSize64", strOf "WriteVarint64",
      none) from rfl] at henc
    simp only [Option.some.injEq, Prod.mk.injEq] at henc
    obtain ⟨rfl, rfl, rfl⟩ := henc
    exact swl_v64_none number v hn
  · rw [show ENCODING_MAP 5 = some (strOf "VarintSize32SignExtended",
      strOf "WriteVarint32SignExtended", none) from rfl] at henc
    simp only [Option.some.injEq, Prod.mk.injEq] at henc
    obtain ⟨rfl, rfl, rfl⟩ := henc
    exact swl_se_none number v hn
  · rw [show ENCODING_MAP 6 = some (strOf "FixedSize64", strOf "WriteFixed64",
      none) from rfl] at henc
    simp only [Option.some.injEq, Prod.mk.injEq] at henc
    obtain ⟨rfl, rfl, rfl⟩ := henc
    exact swl_f64_none number v hn
  · rw [show ENCODING_MAP 7 = some (strOf "FixedSize32", strOf "WriteFixed32",
      none) from rfl] at henc
    simp only [Option.some.injEq, Prod.mk.injEq] at henc
    obtain ⟨rfl, rfl, rfl⟩ := henc
    exact swl_f32_none number v hn
  · rw [show ENCODING_MAP 8 = some (strOf "VarintSizeBool", strOf "WriteVarint32",
      none) from rfl] at henc
    simp only [Option.some.injEq, Prod.mk.injEq] at henc
    obtain ⟨rfl, rfl, rfl⟩ := henc
    cases v with
    | boolean b => exact swl_bool number b hn
    | int x => exact absurd hv (by simp [valMatches, TYPE_BOOL, TYPE_STRING, TYPE_BYTES])
    | bytes s => exact absurd hv (by simp [valMatches, TYPE_BOOL, TYPE_STRING, TYPE_BYTES])
  · rw [show ENCODING_MAP 9 = some (strOf "StringSize", strOf "WriteString",
      none) from rfl] at henc
    simp only [Option.some.injEq, Prod.mk.injEq] at henc
    obtain ⟨rfl, rfl, rfl⟩ := henc
    exact swl_str_none number v hn
  · exact Option.noConfusion ((show ENCODING_MAP 10 = none from rfl) ▸ henc)
  · exact Option.noConfusion ((show ENCODING_MAP 11 = none from rfl) ▸ henc)
  · rw [show ENCODING_MAP 12 = some (strOf "StringSize", strOf "WriteString",
      none) from rfl] at henc
    simp only [Option.some.injEq, Prod.mk.injEq] at henc
    obtain ⟨rfl, rfl, rfl⟩ := henc
    exact swl_str_none number v hn
  · rw [show ENCODING_MAP 13 = some (strOf "VarintSize32", strOf "WriteVarint32",
      none) from rfl] at henc
    simp only [Option.some.injEq, Prod.mk.injEq] at henc
    obtain ⟨rfl, rfl, rfl⟩ := henc
    exact swl_v32_none number v hn
  · rw [show ENCODING_MAP 14 = some (strOf "VarintSize32SignExtended",
      strOf "WriteVarint32SignExtended", some (strOf "static_cast<int32_t>")) from rfl] at henc
    simp only [Option.some.injEq, Prod.mk.injEq] at henc
    obtain ⟨rfl, rfl, rfl⟩ := henc
    exact swl_se_sci32 number v hn
  · rw [show ENCODING_MAP 15 = some (strOf "FixedSize32", strOf "WriteFixed32",
      some (strOf "static_cast<uint32_t>")) from rfl] at henc
    simp only [Option.some.injEq, Prod.mk.injEq] at henc
    obtain ⟨rfl, rfl, rfl⟩ := henc
    exact swl_f32_scu32 number v hn
  · rw [show ENCODING_MAP 16 = some (strOf "FixedSize64", strOf "WriteFixed64",
      some (strOf "static_cast<uint64_t>")) from rfl] at henc
    simp only [Option.some.injEq, Prod.mk.injEq] at henc
    obtain ⟨rfl, rfl, rfl⟩ := henc
    exact swl_f64_scu64 number v hn
  · rw [show ENCODING_MAP 17 = some (strOf "VarintSize32", strOf "WriteVarint32",
      some (strOf "ZigZagEncode32")) from rfl] at henc
    simp only [Option.some.injEq, Prod.mk.injEq] at henc
    obtain ⟨rfl, rfl, rfl⟩ := henc
    exact swl_v32_zz32 number v hn
  · rw [show ENCODING_MAP 18 = some (strOf "VarintSize64", strOf "WriteVarint64",
      some (strOf "ZigZagEncode64")) from rfl] at henc
    simp only [Option.some.injEq, Prod.mk.injEq] at henc
    obtain ⟨rfl, rfl, rfl⟩ := henc
    exact swl_v64_zz64 number v hn

theorem swl_fold (t : Nat) (sizer writer : Str) (fmtt : Option Str) (number : Nat)
    (vs : List CVal) (henc : ENCODING_MAP t = some (sizer, writer, fmtt))
    (hn : number < 16) (hv : vs.all (valMatches t) = true) :
    (vs.foldr (fun v acc => applyWrite writer number (applyFmt fmtt v) ++ acc) []).length =
      vs.foldr (fun v acc => (applySize sizer (applyFmt fmtt v) + 1) + acc) 0 := by
  induction vs with
  | nil => rfl
  | cons v rest ihv =>
    simp only [List.all_cons, Bool.and_eq_true] at hv
    simp only [List.foldr, List.length_append]
    rw [scalar_write_length t sizer writer fmtt number v henc hv.1 hn, ihv hv.2]

theorem bne_true_ne {a b : Nat} (h : (a != b) = true) : a ≠ b := by
  simpa using h

theorem size_ser_agree (n : Nat) :
    (∀ f st, sizeOf st ≤ n → wfField f st = true →
        sizeFieldSem f st = (serFieldSem f st).length) ∧
    (∀ l, sizeOf l ≤ n → wfMsg l = true → sizeMsgSem l = (serMsgSem l).length) := by
  induction n with
  | zero =>
    constructor
    · intro f st hle _
      exact absurd hle (by cases st <;> simp)
    · intro l hle _
      exact absurd hle (by cases l <;> simp)
  | succ n ih =>
    constructor
    · intro f st hle hwf
      cases st with
      | single has v =>
        simp only [wfField, Bool.and_eq_true, decide_eq_true_eq] at hwf
        obtain ⟨⟨⟨⟨hlab, hmsg⟩, hsome⟩, hnum⟩, hval⟩ := hwf
        obtain ⟨⟨sizer, writer, fmtt⟩, henc⟩ := Option.isSome_iff_exists.mp hsome
        have hne : f.type ≠ TYPE_MESSAGE := bne_true_ne hmsg
        simp only [sizeFieldSem, serFieldSem, if_neg hne, henc]
        exact (scalar_write_length f.type sizer writer fmtt f.number v henc hval hnum).symm
      | many has vs =>
        simp only [wfField, Bool.and_eq_true, decide_eq_true_eq] at hwf
        obtain ⟨⟨⟨⟨hlab, hmsg⟩, hsome⟩, hnum⟩, hval⟩ := hwf
        obtain ⟨⟨sizer, writer, fmtt⟩, henc⟩ := Option.isSome_iff_exists.mp hsome
        have hne : f.type ≠ TYPE_MESSAGE := bne_true_ne hmsg
        simp only [sizeFieldSem, serFieldSem, if_neg hne, henc]
        exact (swl_fold f.type sizer writer fmtt f.number vs henc hnum hval).symm
      | subMsg has fields =>
        simp only [wfField, Bool.and_eq_true, decide_eq_true_eq, beq_iff_eq] at hwf
        obtain ⟨⟨⟨hlab, hmsg⟩, hnum⟩, hwfm⟩ := hwf
        have hsz : sizeOf fields ≤ n := by
          cases has <;> simp_all <;> omega
        have hrec := ih.2 fields hsz hwfm
        simp only [sizeFieldSem, serFieldSem, if_pos hmsg]
        cases has with
        | false => simp
        | true =>
          simp only [if_pos rfl]
          unfold WriteLengthDelimited VarintSize32
          rw [tagKey_varint f.number 2 hnum (by omega), hrec]
          simp [List.length_append]
          omega
    · intro l hle hwf
      cases l with
      | nil => rfl
      | cons p rest =>
        obtain ⟨f, st⟩ := p
        simp only [wfMsg, Bool.and_eq_true] at hwf
        have hle1 : sizeOf st ≤ n := by
          simp only [List.cons.sizeOf_spec, Prod.mk.sizeOf_spec] at hle
          omega
        have hle2 : sizeOf rest ≤ n := by
          simp only [List.cons.sizeOf_spec, Prod.mk.sizeOf_spec] at hle
          omega
        simp only [sizeMsgSem, serMsgSem, List.length_append]
        rw [ih.1 f st hle1 hwf.1, ih.2 rest hle2 hwf.2]

/-! ## Claim C1 -/

/-- C1: For every generated message type and every field of it, over every
reachable presence/repeat-count combination, the value returned by the
generated `ByteSizeLong` body equals the exact number of bytes written by
the generated `SerializeToOstream` body for the same structure value: the
size and serialize fragments `write_field` appends are guarded by the same
condition (or both unguarded), iterate the same elements in the same
order, and use the size rule matching the write rule from the encoding
table.  (Well-formedness requires field numbers below 16, matching the
generator's hardcoded one-byte tag-key contribution.) -/
theorem C1_computeSize_eq_serialize_length
    (ms : List (FieldDescriptorProto × FieldStorage)) (h : wfMsg ms = true) :
    sizeMsgSem ms = (serMsgSem ms).length :=
  (size_ser_agree (sizeOf ms)).2 ms le_rfl h

/-- A sample message state: a negative int32, a repeated string with two
elements, a present submessage containing an absent bool, an absent
fixed32 and a zigzag-encoded sint32. -/
def exC1 : List (FieldDescriptorProto × FieldStorage) :=
  [(⟨strOf "x", 1, LABEL_OPTIONAL, TYPE_INT32, []⟩, .single true (.int (-1))),
   (⟨strOf "names", 2, LABEL_REPEATED, TYPE_STRING, []⟩,
     .many true [.bytes [97], .bytes [98, 98]]),
   (⟨strOf "sub", 3, LABEL_OPTIONAL, TYPE_MESSAGE, strOf ".p.Q"⟩,
     .subMsg true [(⟨strOf "b", 1, LABEL_OPTIONAL, TYPE_BOOL, []⟩,
       .single false (.boolean false))]),
   (⟨strOf "f", 4, LABEL_OPTIONAL, TYPE_FIXED32, []⟩, .single false (.int 7)),
   (⟨strOf "s", 5, LABEL_OPTIONAL, TYPE_SINT32, []⟩, .single true (.int (-2)))]

/-- Witness for C1 at a concrete message state. -/
theorem C1_witness : wfMsg exC1 = true ∧ sizeMsgSem exC1 = (serMsgSem exC1).length :=
  ⟨by decide, C1_computeSize_eq_serialize_length exC1 (by decide)⟩

/-! ## Claims C2 and C3 -/

/-- A singular int32 field with tag number 1. -/
def fX : FieldDescriptorProto := ⟨strOf "x", 1, LABEL_OPTIONAL, TYPE_INT32, []⟩

/-- C2 counterexample: a singular int32 field that was never touched (its
presence flag is false and its storage holds the constructor's zero)
still serializes its tag byte and a zero varint — two bytes, not zero —
and its `ByteSizeLong` fragment likewise contributes 2. -/
theorem C2_counterexample :
    serFieldSem fX (.single false (.int 0)) = [8, 0] ∧
    serFieldSem fX (.single false (.int 0)) ≠ [] ∧
    sizeFieldSem fX (.single false (.int 0)) = 2 := by
  refine ⟨?_, ?_, ?_⟩ <;> decide

/-- C2 (amended): for every singular non-message field, the generated
serialize and computeSize bodies emit the field unconditionally — neither
consults the presence flag, so the fragments are independent of it and a
never-touched field still contributes a nonempty encoding (its tag plus
its zero value); only message-kind fields are presence-guarded. -/
theorem C2_serialize_unconditional (f : FieldDescriptorProto) (has has' : Bool) (v : CVal)
    (h : wfField f (.single has v) = true) :
    serFieldSem f (.single has v) = serFieldSem f (.single has' v) ∧
    sizeFieldSem f (.single has v) = sizeFieldSem f (.single has' v) ∧
    serFieldSem f (.single has v) ≠ [] := by
  refine ⟨rfl, rfl, ?_⟩
  simp only [wfField, Bool.and_eq_true, decide_eq_true_eq] at h
  obtain ⟨⟨⟨⟨hlab, hmsg⟩, hsome⟩, hnum⟩, hval⟩ := h
  obtain ⟨⟨sizer, writer, fmtt⟩, henc⟩ := Option.isSome_iff_exists.mp hsome
  have hne : f.type ≠ TYPE_MESSAGE := bne_true_ne hmsg
  simp only [serFieldSem, if_neg hne, henc]
  apply List.ne_nil_of_length_pos
  rw [scalar_write_length f.type sizer writer fmtt f.number v henc hval hnum]
  omega

/-- Witness for the amended C2 at a concrete untouched int32 field. -/
theorem C2_witness :
    wfField fX (.single false (.int 0)) = true ∧
    (serFieldSem fX (.single false (.int 0)) = serFieldSem fX (.single true (.int 0)) ∧
      sizeFieldSem fX (.single false (.int 0)) = sizeFieldSem fX (.single true (.int 0)) ∧
      serFieldSem fX (.single false (.int 0)) ≠ []) :=
  ⟨by decide, C2_serialize_unconditional fX false true (.int 0) (by decide)⟩

/-- C3 counterexample: clearing a message whose only field is a present
int32 holding 5 zeroes the storage but leaves the presence flag `true`,
and the following `ByteSizeLong` returns 2 (tag byte plus zero varint),
not 0. -/
theorem C3_counterexample :
    clearMsgSem [(fX, .single true (.int 5))] = [(fX, .single true (.int 0))] ∧
    sizeMsgSem (clearMsgSem [(fX, .single true (.int 5))]) ≠ 0 :=
  ⟨rfl, by decide⟩

/-- Wire kinds encoded as plain varints. -/
def varintKind (t : Nat) : Bool :=
  t == TYPE_INT64 || t == TYPE_UINT64 || t == TYPE_INT32 || t == TYPE_BOOL ||
    t == TYPE_UINT32 || t == TYPE_ENUM || t == TYPE_SINT32 || t == TYPE_SINT64

/-- An all-scalar message state: every field singular with a varint wire
kind. -/
def allVarintScalarSingle : List (FieldDescriptorProto × FieldStorage) → Bool
  | [] => true
  | (f, st) :: rest =>
    (match st with | .single _ _ => true | _ => false) &&
      (f.label != LABEL_REPEATED) && varintKind f.type && allVarintScalarSingle rest

/-- One-step unfolding of `clearFieldSem` on singular storage. -/
theorem clearFieldSem_single (f : FieldDescriptorProto) (has : Bool) (v : CVal) :
    clearFieldSem f (.single has v) =
      (if f.type = TYPE_MESSAGE then .single has v
       else if f.label = LABEL_REPEATED ∨ f.type = CPPTYPE_STRING then
         .single has (.bytes [])
       else .single has (staticCastZero f.type)) := rfl

/-- One-step unfolding of `sizeFieldSem` on singular storage. -/
theorem sizeFieldSem_single (f : FieldDescriptorProto) (has : Bool) (v : CVal) :
    sizeFieldSem f (.single has v) =
      (if f.type = TYPE_MESSAGE then 0
       else
         match ENCODING_MAP f.type with
         | some (sizer, _, formatter) => applySize sizer (applyFmt formatter v) + 1
         | none => 0) := rfl

/-- After the generated clear, a singular varint-kind field contributes
exactly two bytes to computeSize: the tag byte plus the varint of zero. -/
theorem size_after_clear_varint (f : FieldDescriptorProto) (has : Bool) (v : CVal)
    (hlab : f.label ≠ LABEL_REPEATED) (hvk : varintKind f.type = true) :
    sizeFieldSem f (clearFieldSem f (.single has v)) = 2 := by
  have hvk' : (((((((f.type = TYPE_INT64 ∨ f.type = TYPE_UINT64) ∨ f.type = TYPE_INT32) ∨
      f.type = TYPE_BOOL) ∨ f.type = TYPE_UINT32) ∨ f.type = TYPE_ENUM) ∨
      f.type = TYPE_SINT32) ∨ f.type = TYPE_SINT64) := by
    simpa [varintKind, Bool.or_eq_true, beq_iff_eq] using hvk
  rcases hvk' with ((((((ht | ht) | ht) | ht) | ht) | ht) | ht) | ht <;>
    (have hne : f.type ≠ TYPE_MESSAGE := by rw [ht]; decide
     have hns : ¬(f.label = LABEL_REPEATED ∨ f.type = CPPTYPE_STRING) := by
       rintro (hh | hh)
       · exact hlab hh
       · rw [ht] at hh
         revert hh
         decide
     rw [clearFieldSem_single, if_neg hne, if_neg hns, sizeFieldSem_single, if_neg hne, ht]
     decide)

/-- C3 (amended): the generated clear body resets storage to
empty/default, but resets the presence flag only for message-kind fields
(and only when it was set); for non-message fields the flag is left
untouched.  Because computeSize is unconditional for scalars, clear on an
all-scalar varint-kind message followed by computeSize yields two bytes
per field (tag byte plus zero varint), not 0. -/
theorem C3_clear_behavior :
    (∀ (f : FieldDescriptorProto) (has : Bool) (v : CVal), f.type ≠ TYPE_MESSAGE →
      clearFieldSem f (.single has v) =
        .single has (if f.label = LABEL_REPEATED ∨ f.type = CPPTYPE_STRING then .bytes []
          else staticCastZero f.type)) ∧
    (∀ (f : FieldDescriptorProto) (has : Bool) (vs : List CVal),
      clearFieldSem f (.many has vs) = .many has []) ∧
    (∀ (f : FieldDescriptorProto) (has : Bool)
        (fields : List (FieldDescriptorProto × FieldStorage)), f.type = TYPE_MESSAGE →
      clearFieldSem f (.subMsg has fields) =
        if has then .subMsg false (clearMsgSem fields) else .subMsg has fields) ∧
    (∀ ms, allVarintScalarSingle ms = true → sizeMsgSem (clearMsgSem ms) = 2 * ms.length) := by
  refine ⟨?_, ?_, ?_, ?_⟩
  · intro f has v hne
    simp only [clearFieldSem, if_neg hne]
    split <;> simp
  · intro f has vs
    rfl
  · intro f has fields hmsg
    simp only [clearFieldSem, if_pos hmsg]
  · intro ms hall
    induction ms with
    | nil => rfl
    | cons p rest ih =>
      obtain ⟨f, st⟩ := p
      simp only [allVarintScalarSingle, Bool.and_eq_true] at hall
      obtain ⟨⟨⟨hshape, hlab⟩, hvk⟩, hrest⟩ := hall
      cases st with
      | many has vs => exact absurd hshape (by simp)
      | subMsg has fields => exact absurd hshape (by simp)
      | single has v =>
        have hlab' : f.label ≠ LABEL_REPEATED := bne_true_ne hlab
        have hsz := size_after_clear_varint f has v hlab' hvk
        simp only [clearMsgSem, sizeMsgSem, hsz, ih hrest, List.length_cons]
        omega

/-- Witness for the amended C3 at a concrete two-field message. -/
theorem C3_witness :
    allVarintScalarSingle [(fX, .single true (.int 5)),
        (⟨strOf "b", 2, LABEL_OPTIONAL, TYPE_BOOL, []⟩, .single true (.boolean true))] = true ∧
    sizeMsgSem (clearMsgSem [(fX, .single true (.int 5)),
        (⟨strOf "b", 2, LABEL_OPTIONAL, TYPE_BOOL, []⟩, .single true (.boolean true))]) =
      2 * 2 :=
  ⟨by decide, C3_clear_behavior.2.2.2 _ (by decide)⟩

/-! ## Claim C4 -/

/-- C4: the value transform the generator emits for a float field before
the fixed-width write is `static_cast<uint32_t>` — the very same numeric
conversion it emits for the integral kind sfixed32, not a
bit-reinterpretation — as witnessed by the encoding table entries and by
the serialize line emitted for a concrete singular float field; the
encoded size per occurrence is the constant 4 (or 8 for the 64-bit kinds)
independent of the value. -/
theorem C4_float_transform_and_constant_size :
    ENCODING_MAP TYPE_FLOAT =
      some (strOf "FixedSize32", strOf "WriteFixed32", some (strOf "static_cast<uint32_t>")) ∧
    ENCODING_MAP TYPE_SFIXED32 =
      some (strOf "FixedSize32", strOf "WriteFixed32", some (strOf "static_cast<uint32_t>")) ∧
    ((write_field ⟨[], 0⟩ ⟨strOf "ratio", 3, LABEL_OPTIONAL, TYPE_FLOAT, []⟩
        ⟨[], 4, [], []⟩ ⟨[], 4, [], []⟩ ⟨[], 4, [], []⟩ ⟨[], 4, [], []⟩
        ⟨[], 4, [], []⟩).map (fun r => r.2.2.1.buf) =
      .ok (strOf "    WriteFixed32(output__, 3, static_cast<uint32_t>(ratio_));\n")) ∧
    (∀ v : CVal, applySize (strOf "FixedSize32") v = 4 ∧ applySize (strOf "FixedSize64") v = 8) :=
  ⟨rfl, rfl, rfl, fun v => ⟨as_f32 v, as_f64 v⟩⟩

/-! ## Claim C5 -/

/-- Render a list of already-stripped lines at the current depth, the way
`writelines` does: every line but the last is written unconditionally, and
a final line that stripped to nothing is suppressed. -/
def renderAll (ind : Int) : List Str → Str
  | [] => []
  | [last] => if last ≠ [] then writelnText ind last else []
  | l :: rest => writelnText ind l ++ renderAll ind rest

/-- Definition following the amended claim's words (C5): after dropping a
leading blank line, each line is stripped by the minimum of its own
leading whitespace and the *first* line's leading whitespace, then
re-indented to the engine's current depth. -/
def specWritelinesMinFirst (ind : Int) (s : Str) : Str :=
  let lines := splitNl s
  let lines :=
    match lines with
    | l0 :: rest => if stripIsEmpty l0 then rest else lines
    | [] => []
  match lines with
  | [] => []
  | l0 :: rest =>
    renderAll ind
      ((l0 :: rest).map (fun l => l.drop (min (initial_indent l) (initial_indent l0))))

/-- Definition following the original claim's words (C5): the minimum
common leading whitespace computed across all non-blank lines. -/
def minCommonIndent (ls : List Str) : Nat :=
  match ls.filter (fun l => !stripIsEmpty l) with
  | [] => 0
  | l :: rest => (rest.map initial_indent).foldl min (initial_indent l)

/-- Definition following the original claim's words (C5): every line is
stripped by the fragment's minimum common leading whitespace, then
re-indented to the engine's current depth. -/
def specWritelinesClaim (ind : Int) (s : Str) : Str :=
  let lines := splitNl s
  let lines :=
    match lines with
    | l0 :: rest => if stripIsEmpty l0 then rest else lines
    | [] => []
  match lines with
  | [] => []
  | l0 :: rest =>
    renderAll ind ((l0 :: rest).map (fun l => l.drop (minCommonIndent (l0 :: rest))))

/-- C5 counterexample: on the fragment `"    a\n  b"` (second line less
indented than the first) `writelines` strips each line by the *first*
line's indent, producing `"a\nb\n"`, whereas stripping by the minimum
common leading whitespace (2) would produce `"  a\nb\n"`. -/
theorem C5_counterexample :
    writelinesText 0 (strOf "    a\n  b") = strOf "a\nb\n" ∧
    specWritelinesClaim 0 (strOf "    a\n  b") = strOf "  a\nb\n" ∧
    writelinesText 0 (strOf "    a\n  b") ≠ specWritelinesClaim 0 (strOf "    a\n  b") :=
  ⟨by decide, by decide, by decide⟩

theorem emitLines_eq_renderAll (ind : Int) (fi : Nat) (ls : List Str) :
    emitLines ind fi ls =
      renderAll ind (ls.map (fun l => l.drop (min (initial_indent l) fi))) := by
  induction ls with
  | nil => rfl
  | cons l rest ih =>
    cases rest with
    | nil => rfl
    | cons l2 r2 =>
      show writelnText ind (l.drop (min (initial_indent l) fi)) ++ emitLines ind fi (l2 :: r2) = _
      rw [ih]
      rfl

/-- C5 (amended): `writelines` strips each line of the fragment by the
minimum of that line's own leading whitespace and the *first* line's
leading whitespace (so a line indented more deeply than the first keeps
its extra indentation relative to the first line, while a line indented
less deeply loses all of its own), dropping one leading blank line and a
trailing line that strips to nothing, and re-indents every emitted line
to the engine's current depth. -/
theorem C5_margin_normalization (ind : Int) (s : Str) :
    writelinesText ind s = specWritelinesMinFirst ind s := by
  unfold writelinesText specWritelinesMinFirst
  cases splitNl s with
  | nil => rfl
  | cons l0 rest =>
    by_cases hb : stripIsEmpty l0 = true
    · simp only [hb, if_true]
      cases rest with
      | nil => rfl
      | cons l1 r2 => exact emitLines_eq_renderAll ind (initial_indent l1) (l1 :: r2)
    · simp only [hb, if_false, Bool.false_eq_true]
      exact emitLines_eq_renderAll ind (initial_indent l0) (l0 :: rest)

/-! ## Claim C6 -/

/-- Definition following the claim's words (C6): every non-alphanumeric
character of the guard replaced with an underscore, letters and decimal
digits preserved. -/
def specHeaderGuardAlnum (output_file : Str) : Str :=
  (strOf "NINJA_" ++ (basename output_file).map Char.toUpper).map
    (fun c => if c.isAlphanum then c else '_')

/-- C6 counterexample: for the output name `v2.h` the generator's regex
`[^a-zA-Z]` also replaces the decimal digit, yielding `NINJA_V__H`
instead of the claimed `NINJA_V2_H`. -/
theorem C6_counterexample :
    header_guard_of (strOf "v2.h") = strOf "NINJA_V__H" ∧
    specHeaderGuardAlnum (strOf "v2.h") = strOf "NINJA_V2_H" ∧
    header_guard_of (strOf "v2.h") ≠ specHeaderGuardAlnum (strOf "v2.h") :=
  ⟨by decide, by decide, by decide⟩

/-- C6 (amended): the header guard is derived from the output file's base
name by uppercasing it and replacing every character that is not an ASCII
letter — decimal digits included — with an underscore, prefixed with
`NINJA_` (which the replacement leaves unchanged). -/
theorem C6_header_guard (name : Str) :
    header_guard_of name =
      strOf "NINJA_" ++
        ((basename name).map Char.toUpper).map (fun c => if c.isAlpha then c else '_') := by
  unfold header_guard_of
  rw [List.map_append]
  have h : (strOf "NINJA_").map (fun c => if c.isAlpha then c else '_') = strOf "NINJA_" := by
    decide
  rw [h]

/-! ## Claim C8 -/

/-- A non-message field whose wire kind the encoding table does not cover
makes `write_field` fail with the bare `KeyError` escaping the dictionary
lookup, carrying only the missing wire-kind value. -/
theorem write_field_unsupported (f : FieldDescriptorProto)
    (hmsg : f.type ≠ TYPE_MESSAGE) (henc : ENCODING_MAP f.type = none)
    (htn : f.type_name ≠ []) (w : W) (ctor ser size clear methods : SW) :
    write_field w f ctor ser size clear methods = .error (.keyError f.type) := by
  have hft : field_type_to_cpp_type f = .ok (replaceDots f.type_name) := by
    unfold field_type_to_cpp_type
    rw [if_pos htn]
  have hbe : (f.type == TYPE_MESSAGE) = false := by simp [hmsg]
  unfold write_field
  rw [hft]
  simp only [Bind.bind, Except.bind, hbe, Bool.false_eq_true, if_false, henc]

/-- C8 counterexample: two distinct fields of the unmapped wire kind
`TYPE_GROUP` (different names and tag numbers) produce the *identical*
error value `KeyError 10` — the error is not labelled
`UnsupportedFieldKind` and carries nothing that could locate the
offending schema element. -/
theorem C8_counterexample :
    write_field ⟨[], 0⟩ ⟨strOf "alpha", 1, LABEL_OPTIONAL, TYPE_GROUP, strOf ".p.G"⟩
        ⟨[], 4, [], []⟩ ⟨[], 4, [], []⟩ ⟨[], 4, [], []⟩ ⟨[], 4, [], []⟩ ⟨[], 4, [], []⟩ =
      .error (.keyError 10) ∧
    write_field ⟨[], 0⟩ ⟨strOf "beta", 7, LABEL_REPEATED, TYPE_GROUP, strOf ".p.H"⟩
        ⟨[], 4, [], []⟩ ⟨[], 4, [], []⟩ ⟨[], 4, [], []⟩ ⟨[], 4, [], []⟩ ⟨[], 4, [], []⟩ =
      .error (.keyError 10) ∧
    strOf "alpha" ≠ strOf "beta" :=
  ⟨rfl, rfl, by decide⟩

/-- C8 (amended): a non-message field whose wire kind the encoding table
does not cover aborts generation with the unhandled lookup error
(`KeyError`) carrying only the unmapped wire-kind value — not an error
labelled `UnsupportedFieldKind`, and without naming the offending field —
and the driver leaves the final output path untouched (exit status 1, no
rename); generated code itself contains no error path. -/
theorem C8_unsupported_kind_fatal (f : FieldDescriptorProto)
    (hmsg : f.type ≠ TYPE_MESSAGE) (henc : ENCODING_MAP f.type = none)
    (htn : f.type_name ≠ []) :
    (∀ (w : W) (ctor ser size clear methods : SW),
      write_field w f ctor ser size clear methods = .error (.keyError f.type)) ∧
    (∀ a0 i o pkg mname : Str,
      mainModel ⟨[a0, i, o], .parsed [⟨pkg, [.mk mname [f] [] []], []⟩]⟩ = ⟨1, none⟩) := by
  refine ⟨write_field_unsupported f hmsg henc htn, ?_⟩
  intro a0 i o pkg mname
  have h2 : write_proto ⟨[], 0⟩ a0 o ⟨pkg, [.mk mname [f] [] []], []⟩ =
      .error (.keyError f.type) := by
    simp only [write_proto, write_messages, write_message, write_fields, List.foldl,
      write_field_unsupported f hmsg henc htn, Bind.bind, Except.bind]
  simp [mainModel, h2]

/-- Witness for C8 at a concrete group-typed field. -/
theorem C8_witness :
    (⟨strOf "g", 2, LABEL_OPTIONAL, TYPE_GROUP, strOf ".p.G"⟩ :
        FieldDescriptorProto).type ≠ TYPE_MESSAGE ∧
    mainModel ⟨[strOf "gen.py", strOf "in.ds", strOf "out.h"],
        .parsed [⟨strOf "p",
          [.mk (strOf "M") [⟨strOf "g", 2, LABEL_OPTIONAL, TYPE_GROUP, strOf ".p.G"⟩] [] []],
          []⟩]⟩ = ⟨1, none⟩ :=
  ⟨by decide,
    (C8_unsupported_kind_fatal ⟨strOf "g", 2, LABEL_OPTIONAL, TYPE_GROUP, strOf ".p.G"⟩
      (by decide) (by decide) (by decide)).2 _ _ _ _ _⟩

/-! ## Claim C9 -/

/-- C9: success writes the generated document at the final path and exits
with status 0; an unreadable input exits 2 with the final path untouched;
a descriptor set whose file count is not exactly one exits 3 with the
final path untouched; every run that exits nonzero leaves the final path
untouched (content only ever reaches the final path through the single
rename that success performs); and the three statuses are pairwise
distinct. -/
theorem C9_exit_behavior :
    (∀ (a0 i o : Str) (proto : FileDescriptorProto) (doc : W),
      write_proto ⟨[], 0⟩ a0 o proto = .ok doc →
        mainModel ⟨[a0, i, o], .parsed [proto]⟩ = ⟨0, some doc.buf⟩) ∧
    (∀ a0 i o : Str, mainModel ⟨[a0, i, o], .ioError⟩ = ⟨2, none⟩) ∧
    (∀ (a0 i o : Str) (files : List FileDescriptorProto), files.length ≠ 1 →
      mainModel ⟨[a0, i, o], .parsed files⟩ = ⟨3, none⟩) ∧
    (∀ e : Env, (mainModel e).exitCode ≠ 0 → (mainModel e).finalWrite = none) ∧
    ((2 : Nat) ≠ 0 ∧ (3 : Nat) ≠ 0 ∧ (2 : Nat) ≠ 3) := by
  refine ⟨?_, ?_, ?_, ?_, by decide⟩
  · intro a0 i o proto doc h
    simp [mainModel, h]
  · intro a0 i o
    rfl
  · intro a0 i o files hlen
    rcases files with _ | ⟨p, _ | ⟨q, r⟩⟩
    · rfl
    · simp at hlen
    · rfl
  · intro e he
    obtain ⟨argv, input⟩ := e
    rcases argv with _ | ⟨a0, _ | ⟨a1, _ | ⟨a2, _ | ⟨a3, rest⟩⟩⟩⟩
    · rfl
    · rfl
    · by_cases hp : a1 = strOf "--probe" <;> simp [mainModel, hp]
    · cases input with
      | ioError => rfl
      | decodeError => rfl
      | parsed files =>
        rcases files with _ | ⟨p, _ | ⟨q, r⟩⟩
        · rfl
        · cases hwp : write_proto ⟨[], 0⟩ a0 a2 p with
          | error err => simp [mainModel, hwp]
          | ok w =>
            simp only [mainModel, hwp] at he
            exact absurd rfl he
        · rfl
    · rfl

/-- The empty one-package descriptor used as the C9 witness input. -/
def protoEmpty : FileDescriptorProto := ⟨strOf "p", [], []⟩

/-- The document the generator produces for `protoEmpty`. -/
def docEmpty : W :=
  match write_proto ⟨[], 0⟩ (strOf "gen.py") (strOf "out.h") protoEmpty with
  | .ok w => w
  | .error _ => ⟨[], 0⟩

/-- Witness for C9: a successful run, an input-read failure and a
zero-descriptor input at concrete arguments. -/
theorem C9_witness :
    mainModel ⟨[strOf "gen.py", strOf "in.ds", strOf "out.h"], .parsed [protoEmpty]⟩ =
      ⟨0, some docEmpty.buf⟩ ∧
    mainModel ⟨[strOf "gen.py", strOf "in.ds", strOf "out.h"], .ioError⟩ = ⟨2, none⟩ ∧
    mainModel ⟨[strOf "gen.py", strOf "in.ds", strOf "out.h"], .parsed []⟩ = ⟨3, none⟩ :=
  ⟨C9_exit_behavior.1 (strOf "gen.py") (strOf "in.ds") (strOf "out.h") protoEmpty docEmpty rfl,
    C9_exit_behavior.2.1 (strOf "gen.py") (strOf "in.ds") (strOf "out.h"),
    C9_exit_behavior.2.2.1 (strOf "gen.py") (strOf "in.ds") (strOf "out.h") [] (by decide)⟩

/-! ## Claim C10 -/

/-- C10: for every singular bytes field the generator emits the
numeric-scalar reset `name_ = static_cast< std::string >(0);` into *both*
the constructor and the clear body (the full `write_field` output for a
singular bytes field is characterised below), whereas a singular string
field gets the string path `name_.clear();` in the clear body and no
constructor reset; the branch distinguishing them compares the field's
wire-type identifier against `CPPTYPE_STRING`, which coincides with
`TYPE_STRING`'s value but not with `TYPE_BYTES`'s. -/
theorem C10_bytes_numeric_reset :
    (∀ (name : Str) (num : Nat) (w : W) (ctor ser size clear methods : SW),
      write_field w ⟨name, num, LABEL_OPTIONAL, TYPE_BYTES, []⟩ ctor ser size clear methods =
        .ok (w.writelines (strOf "\n            " ++ strOf "std::string" ++ strOf " " ++
              (name ++ ['_']) ++ strOf ";\n            bool has_" ++ (name ++ ['_']) ++
              strOf ";\n        "),
          (ctor.writelines (strOf "\n            has_" ++ (name ++ ['_']) ++
              strOf " = false;\n        ")).writelines
            (strOf "\n                    " ++ (name ++ ['_']) ++ strOf " = static_cast< " ++
              strOf "std::string" ++ strOf " >(0);\n                "),
          ser.writelines (strOf "\n                " ++ strOf "WriteString" ++
            strOf "(output__, " ++ natToDec num ++ strOf ", " ++ (name ++ ['_']) ++
            strOf ");\n            "),
          size.writelines (strOf "\n                size += " ++ strOf "StringSize" ++
            strOf "(" ++ (name ++ ['_']) ++ strOf ") + 1;\n            "),
          clear.writelines (strOf "\n                    " ++ (name ++ ['_']) ++
            strOf " = static_cast< " ++ strOf "std::string" ++ strOf " >(0);\n                "),
          (methods.writelines (strOf "\n                " ++ strOf "std::string" ++
              strOf "* mutable_" ++ name ++ strOf "() \x7b\n                  has_" ++
              (name ++ ['_']) ++
              strOf " = true;\n                  return &" ++ (name ++ ['_']) ++
              strOf ";\n                \x7d\n            ")).writelines
            (strOf "\n                void set_" ++ name ++
              strOf "(const " ++ strOf "std::string" ++
              strOf "& value) \x7b\n                  has_" ++
              (name ++ ['_']) ++ strOf " = true;\n                  " ++ (name ++ ['_']) ++
              strOf " = value;\n                \x7d\n            "))) ∧
    (∀ (name : Str) (num : Nat) (w : W) (ctor ser size clear methods : SW),
      (write_field w ⟨name, num, LABEL_OPTIONAL, TYPE_STRING, []⟩ ctor ser size clear
          methods).map (fun r => (r.2.1.buf, r.2.2.2.2.1.buf)) =
        .ok (ctor.buf ++ writelinesText ctor.curIndent (strOf "\n            has_" ++
            (name ++ ['_']) ++ strOf " = false;\n        "),
          clear.buf ++ writelinesText clear.curIndent (strOf "\n                    " ++
            (name ++ ['_']) ++ strOf ".clear();\n                "))) ∧
    CPPTYPE_STRING = TYPE_STRING ∧ CPPTYPE_STRING ≠ TYPE_BYTES :=
  ⟨fun _ _ _ _ _ _ _ _ => rfl, fun _ _ _ _ _ _ _ _ => rfl, rfl, by decide⟩

/-! ## Claim C7 -/

theorem except_ok_bind {ε α β : Type} (a : α) (k : α → Except ε β) :
    (Except.ok a >>= k) = k a := rfl

theorem except_error_bind {ε α β : Type} (e : ε) (k : α → Except ε β) :
    ((Except.error e : Except ε α) >>= k) = .error e := rfl

theorem except_map_bind {ε α β γ : Type} (g : β → γ) (e : Except ε α) (k : α → Except ε β) :
    Except.map g (e >>= k) = e >>= fun a => Except.map g (k a) := by
  cases e <;> rfl

theorem except_bind_congr {ε α β : Type} (e : Except ε α) (k1 k2 : α → Except ε β)
    (h : ∀ a, k1 a = k2 a) : (e >>= k1) = e >>= k2 := by
  cases e with
  | error e => rfl
  | ok a => exact h a

theorem except_pure_bind {ε α β : Type} (a : α) (k : α → Except ε β) :
    ((pure a : Except ε α) >>= k) = k a := rfl

theorem write_field_w_indep (b : Str) (i : Int) (f : FieldDescriptorProto)
    (c s z k m : SW) :
    write_field ⟨b, i⟩ f c s z k m =
      (write_field ⟨[], i⟩ f c s z k m).map (fun r => (⟨b ++ r.1.buf, i⟩, r.2)) := by
  unfold write_field
  cases hft : field_type_to_cpp_type f with
  | error e => rfl
  | ok fct =>
    rw [except_ok_bind, except_ok_bind]
    simp only []
    by_cases hm : (f.type == TYPE_MESSAGE) = true
    · rw [if_pos hm, if_pos hm]
      rw [except_pure_bind, except_pure_bind]
      simp [W.writelines, W.write, Except.map]
    · rw [if_neg hm, if_neg hm]
      cases henc : ENCODING_MAP f.type with
      | none => simp only [henc]; rfl
      | some trip =>
        obtain ⟨sz, wr, fm⟩ := trip
        simp only [henc]
        rw [except_pure_bind, except_pure_bind]
        simp [W.writelines, W.write, Except.map]



theorem write_fields_w_indep (i : Int) (fs : List FieldDescriptorProto) :
    ∀ (b : Str) (c s z k m : SW),
    write_fields ⟨b, i⟩ c s z k m fs =
      (write_fields ⟨[], i⟩ c s z k m fs).map (fun r => (⟨b ++ r.1.buf, i⟩, r.2)) := by
  induction fs with
  | nil => intro b c s z k m; simp [write_fields, Except.map]
  | cons f rest ih =>
    intro b c s z k m
    simp only [write_fields]
    rw [write_field_w_indep b i f c s z k m]
    cases hwf : write_field ⟨[], i⟩ f c s z k m with
    | error e => rfl
    | ok r =>
      obtain ⟨⟨w1b, w1i⟩, c1, s1, z1, k1, m1⟩ := r
      have hci : w1i = i := by
        have h0 := write_field_w_indep [] i f c s z k m
        rw [hwf] at h0
        simp only [Except.map, Except.ok.injEq, Prod.mk.injEq, W.mk.injEq,
          List.nil_append] at h0
        exact h0.1.2
      subst hci
      simp only [Except.map, except_ok_bind]
      rw [ih (b ++ w1b) c1 s1 z1 k1 m1, ih w1b c1 s1 z1 k1 m1]
      cases hX : write_fields ⟨[], w1i⟩ c1 s1 z1 k1 m1 rest with
      | error e2 => simp [hX, Except.map]
      | ok v => simp [hX, Except.map, List.append_assoc]

theorem W_writelines_mk (b : Str) (i : Int) (s : Str) :
    (⟨b, i⟩ : W).writelines s = ⟨b ++ writelinesText i s, i⟩ := rfl

theorem foldl_enum_values_indep (i : Int) (vals : List EnumValueDescriptorProto) :
    ∀ b : Str,
    vals.foldl (fun (w : W) v =>
      w.writelines (strOf "\n                " ++ v.name ++ strOf " = " ++
        intToDec v.number ++ strOf ",\n            ")) (⟨b, i⟩ : W) =
      ⟨b ++ (vals.foldl (fun (w : W) v =>
        w.writelines (strOf "\n                " ++ v.name ++ strOf " = " ++
          intToDec v.number ++ strOf ",\n            ")) (⟨[], i⟩ : W)).buf, i⟩ := by
  induction vals with
  | nil => intro b; simp [List.foldl]
  | cons v vs ih =>
    intro b
    rw [List.foldl_cons, List.foldl_cons, W_writelines_mk, W_writelines_mk]
    rw [ih (b ++ writelinesText i (strOf "\n                " ++ v.name ++ strOf " = " ++
        intToDec v.number ++ strOf ",\n            ")),
      ih ([] ++ writelinesText i (strOf "\n                " ++ v.name ++ strOf " = " ++
        intToDec v.number ++ strOf ",\n            "))]
    simp [List.append_assoc]

theorem W_indent_mk (b : Str) (i : Int) : (⟨b, i⟩ : W).indent = ⟨b, i + 2⟩ := rfl

theorem W_unindent_mk (b : Str) (i : Int) : (⟨b, i⟩ : W).unindent = ⟨b, i - 2⟩ := rfl

theorem write_enum_w_indep (b : Str) (i : Int) (e : EnumDescriptorProto) :
    write_enum ⟨b, i⟩ e = ⟨b ++ (write_enum ⟨[], i⟩ e).buf, i⟩ := by
  simp only [write_enum, W_writelines_mk, W_indent_mk]
  rw [foldl_enum_values_indep (i + 2) e.value
      (b ++ writelinesText i (strOf "\n            enum " ++ e.name ++ strOf " \x7b\n        ")),
    foldl_enum_values_indep (i + 2) e.value
      ([] ++ writelinesText i (strOf "\n            enum " ++ e.name ++ strOf " \x7b\n        "))]
  simp only [W_unindent_mk, W_writelines_mk]
  simp [List.append_assoc, Int.add_sub_cancel]

theorem foldl_write_enum_indep (i : Int) (es : List EnumDescriptorProto) :
    ∀ b : Str,
    es.foldl write_enum ⟨b, i⟩ = ⟨b ++ (es.foldl write_enum ⟨[], i⟩).buf, i⟩ := by
  induction es with
  | nil => intro b; simp [List.foldl]
  | cons e es ih =>
    intro b
    simp only [List.foldl_cons]
    rw [write_enum_w_indep b i e, write_enum_w_indep [] i e]
    simp only [List.nil_append]
    rw [ih (b ++ (write_enum ⟨[], i⟩ e).buf), ih ((write_enum ⟨[], i⟩ e).buf)]
    simp [List.append_assoc]



theorem W_newline_mk (b : Str) (i : Int) : (⟨b, i⟩ : W).newline = ⟨b ++ ['\n'], i⟩ := rfl

theorem W_write_mk (b : Str) (i : Int) (s : Str) : (⟨b, i⟩ : W).write s = ⟨b ++ s, i⟩ := rfl

theorem func_mk (b : Str) (i : Int) (x : Str) :
    func ⟨b, i⟩ x = SW.make i (x ++ strOf " \x7b") (strOf "\x7d\n\n") := rfl

mutual

/-- Definition following the amended claim's words (C7): the generated
record's content in final-document order — nested message types first
(each fully finished, depth-first), then nested enum types, then the
field declarations, then the constructor body, the copy/assignment
disabling declarations, the serialize body, the computeSize body, the
clear body, and the accessor methods last, wrapped between the struct
header and footer. -/
def msgLayout (ind : Int) (m : DescriptorProto) : Except GenError Str :=
  match m with
  | .mk mname mfield mnested menum => do
    let nested ← msgsLayout (ind + 2) mnested
    let enums := (menum.foldl write_enum (⟨[], ind + 2⟩ : W)).buf
    let r ← write_fields ⟨[], ind + 2⟩
        (SW.make (ind + 2) ((mname ++ strOf "()") ++ strOf " \x7b") (strOf "\x7d\n\n"))
        (SW.make (ind + 2)
          ((strOf "void SerializeToOstream(std::ostream* output__) const") ++ strOf " \x7b")
          (strOf "\x7d\n\n"))
        ((SW.make (ind + 2) ((strOf "size_t ByteSizeLong() const") ++ strOf " \x7b")
            (strOf "\x7d\n\n")).writelines
          (strOf "\n            size_t size = 0;\n        "))
        (SW.make (ind + 2) ((strOf "void Clear()") ++ strOf " \x7b") (strOf "\x7d\n\n"))
        (SW.make (ind + 2) [] []) mfield
    .ok (writelinesText ind (strOf "\n            struct " ++ mname ++ strOf " \x7b\n        ") ++
      nested ++ enums ++ r.1.buf ++
      (if mfield.length > 0 then ['\n'] else []) ++
      writelinesText (ind + 2) r.2.1.string ++
      writelinesText (ind + 2) (strOf "\n            " ++ mname ++ strOf "(const " ++ mname ++
        strOf "&);\n            void operator=(const " ++ mname ++ strOf "&);\n\n        ") ++
      writelinesText (ind + 2) r.2.2.1.string ++
      writelinesText (ind + 2) (r.2.2.2.1.writelines (strOf "return size;")).string ++
      writelinesText (ind + 2) r.2.2.2.2.1.string ++
      r.2.2.2.2.2.string ++
      writelinesText ind (strOf "\n            \x7d;\n\n        "))
termination_by structural m

/-- Concatenation of `msgLayout` over a message list. -/
def msgsLayout (ind : Int) (ms : List DescriptorProto) : Except GenError Str :=
  match ms with
  | [] => .ok []
  | m :: rest => do
    let t ← msgLayout ind m
    let ts ← msgsLayout ind rest
    .ok (t ++ ts)
termination_by structural ms

end



theorem write_message_layout_aux (n : Nat) :
    (∀ (wb : Str) (wi : Int) (m : DescriptorProto), sizeOf m ≤ n →
      write_message ⟨wb, wi⟩ m = (msgLayout wi m).map (fun t => (⟨wb ++ t, wi⟩ : W))) ∧
    (∀ (wb : Str) (wi : Int) (ms : List DescriptorProto), sizeOf ms ≤ n →
      write_messages ⟨wb, wi⟩ ms = (msgsLayout wi ms).map (fun t => (⟨wb ++ t, wi⟩ : W))) := by
  induction n with
  | zero =>
    constructor
    · intro wb wi m hle
      exact absurd hle (by cases m <;> simp)
    · intro wb wi ms hle
      exact absurd hle (by cases ms <;> simp)
  | succ n ih =>
    constructor
    · intro wb wi m hle
      obtain ⟨mname, mfield, mnested, menum⟩ := m
      have hsz : sizeOf mnested ≤ n := by
        simp only [DescriptorProto.mk.sizeOf_spec] at hle
        omega
      simp only [write_message, msgLayout, W_writelines_mk, W_indent_mk, func_mk]
      rw [ih.2 (wb ++ writelinesText wi (strOf "\n            struct " ++ mname ++
          strOf " \x7b\n        ")) (wi + 2) mnested hsz]
      cases hN : msgsLayout (wi + 2) mnested with
      | error e => rfl
      | ok nt =>
        simp only [Except.map, except_ok_bind, except_error_bind]
        rw [foldl_write_enum_indep (wi + 2) menum
          ((wb ++ writelinesText wi (strOf "\n            struct " ++ mname ++
            strOf " \x7b\n        ")) ++ nt)]
        rw [write_fields_w_indep (wi + 2) mfield
          (((wb ++ writelinesText wi (strOf "\n            struct " ++ mname ++
            strOf " \x7b\n        ")) ++ nt) ++
            (menum.foldl write_enum (⟨[], wi + 2⟩ : W)).buf)]
        cases hF : write_fields ⟨[], wi + 2⟩
            (SW.make (wi + 2) ((mname ++ strOf "()") ++ strOf " \x7b") (strOf "\x7d\n\n"))
            (SW.make (wi + 2)
              ((strOf "void SerializeToOstream(std::ostream* output__) const") ++ strOf " \x7b")
              (strOf "\x7d\n\n"))
            ((SW.make (wi + 2) ((strOf "size_t ByteSizeLong() const") ++ strOf " \x7b")
                (strOf "\x7d\n\n")).writelines
              (strOf "\n            size_t size = 0;\n        "))
            (SW.make (wi + 2) ((strOf "void Clear()") ++ strOf " \x7b") (strOf "\x7d\n\n"))
            (SW.make (wi + 2) [] []) mfield with
        | error e => rfl
        | ok r =>
          obtain ⟨⟨rb, ri⟩, c1, s1, z1, k1, m1⟩ := r
          by_cases hmf : mfield.length > 0
          · simp only [Except.map, except_ok_bind, if_pos hmf, W_newline_mk,
              W_writelines_mk, W_unindent_mk, W_write_mk]
            simp [List.append_assoc, Int.add_sub_cancel]
          · simp only [Except.map, except_ok_bind, if_neg hmf, W_newline_mk,
              W_writelines_mk, W_unindent_mk, W_write_mk]
            simp [List.append_assoc, Int.add_sub_cancel]
    · intro wb wi ms
      induction ms generalizing wb with
      | nil =>
        intro hle
        simp [write_messages, msgsLayout, Except.map]
      | cons m rest ihms =>
        intro hle
        have h1 : sizeOf m ≤ n := by
          simp only [List.cons.sizeOf_spec] at hle
          have : 1 ≤ sizeOf rest := by
            cases rest <;> simp <;> omega
          omega
        have h2 : sizeOf rest ≤ n + 1 := by
          simp only [List.cons.sizeOf_spec] at hle
          omega
        simp only [write_messages, msgsLayout]
        rw [ih.1 wb wi m h1]
        cases hL : msgLayout wi m with
        | error e => rfl
        | ok t =>
          simp only [Except.map, except_ok_bind]
          rw [ihms (wb ++ t) h2]
          cases hR : msgsLayout wi rest with
          | error e => rfl
          | ok ts => simp [Except.map, except_ok_bind, List.append_assoc]



/-- Position of the first occurrence of `pat` in `s`. -/
def firstPos (pat : Str) : Str → Option Nat
  | [] => if pat.isPrefixOf ([] : Str) then some 0 else none
  | c :: rest =>
    if pat.isPrefixOf (c :: rest) then some 0
    else (firstPos pat rest).map (· + 1)

/-- Both patterns occur and the first occurrence of `a` is strictly
before the first occurrence of `bb`. -/
def subBefore (a bb s : Str) : Bool :=
  match firstPos a s, firstPos bb s with
  | some i, some j => decide (i < j)
  | _, _ => false

/-- The document generated for a one-field message `P { int32 x = 1; }`. -/
def docP : Str :=
  match write_message ⟨[], 0⟩
      (.mk (strOf "P") [⟨strOf "x", 1, LABEL_OPTIONAL, TYPE_INT32, []⟩] [] []) with
  | .ok w => w.buf
  | .error _ => []

set_option maxRecDepth 40000 in
/-- C7 counterexample: in the document generated for the one-field
message `P (int32 x = 1)`, the accessor `set_x` appears *after* the
serialize body and after the clear body, contradicting the claimed
placement of accessor methods together with the field declarations before
the four method bodies (while serialize does appear before clear). -/
theorem C7_counterexample :
    subBefore (strOf "void SerializeToOstream") (strOf "void set_x") docP = true ∧
    subBefore (strOf "void Clear()") (strOf "void set_x") docP = true ∧
    subBefore (strOf "void SerializeToOstream") (strOf "void Clear()") docP = true := by
  refine ⟨?_, ?_, ?_⟩ <;> decide

/-- C7 (amended): for every message schema, the generated record's
content appears in this order in the final document: all nested message
types first (each fully finished, depth-first, before the next), then
nested enum types, then the message's own field declarations, then the
four method bodies — constructor, serialize, computeSize, clear, with the
serialize body before the clear body — interleaved with the
copy/assignment-disabling declarations after the constructor, and the
accessor methods last, as captured by `msgLayout`. -/
theorem C7_message_layout (w : W) (m : DescriptorProto) :
    write_message w m =
      (msgLayout w.curIndent m).map (fun t => (⟨w.buf ++ t, w.curIndent⟩ : W)) := by
  obtain ⟨wb, wi⟩ := w
  exact (write_message_layout_aux (sizeOf m)).1 wb wi m le_rfl

end NinjaProto
